import Mathlib

/-!
# Verification of the bar-database build pipeline

Shallow embedding of `src/build_database.py`, a one-shot pandas ETL job
that assembles five tables (drinks, glasses, bars, inventory, orders).

Modelling conventions:
* A pandas `DataFrame` is a list of column names together with a list of
  rows; a row is a list of `Value` cells in column order.
* A pandas cell is a `Value`: a Python `int`, a Python `str`, a float
  (modelled as a rational; the pipeline never computes with floats, it
  only stores and casts them), or a null (`NaN`/`None`).
* Fallible pandas operations (`pd.concat` of an empty list, `astype`
  coercion failures, missing-column `KeyError`s, `int()` parse failures)
  return `Except String`.
* Python's global-interpreter sequencing is irrelevant: the job is
  single-threaded straight-line code, so every function is a pure
  function of its (explicit or global) inputs.
-/

/-- A pandas cell value.  Floats are modelled as rationals: the pipeline
only ever stores floats (`order_amount`) and casts between numeric
types, never performs float arithmetic, so no rounding behaviour is
observable.  `null` stands for `NaN`/`None`. -/
inductive Value where
  | int : Int → Value
  | float : Rat → Value
  | str : String → Value
  | null : Value
deriving DecidableEq, Repr

/-- A pandas DataFrame: named columns and rows of cells in column order.
The pandas row index is not carried here; the only function whose
behaviour depends on it is `create_index`, whose first statement
discards the incoming index, so it is modelled locally there. -/
structure DataFrame where
  cols : List String
  rows : List (List Value)
deriving DecidableEq, Repr

/-- Well-formedness: each row has one cell per column. -/
def DataFrame.WF (df : DataFrame) : Prop :=
  ∀ r ∈ df.rows, r.length = df.cols.length

/-- Cell lookup by column name (`df[c]` on one row): the cell at the
position of the first column named `c`; out-of-range or missing columns
give `null`. -/
def getCell (cols : List String) (row : List Value) (c : String) : Value :=
  match cols, row with
  | c' :: cols', v :: row' => if c' = c then v else getCell cols' row' c
  | _, _ => Value.null

/-- A whole column of a DataFrame, in row order (`df[c]`). -/
def colValues (df : DataFrame) (c : String) : List Value :=
  df.rows.map (fun r => getCell df.cols r c)

/-- Key comparison used by `pd.merge`: `NaN` keys never match anything
(including another `NaN`); other values match on equality.  The
pipeline only ever joins on string keys. -/
def keyMatch (v w : Value) : Bool :=
  match v, w with
  | Value.null, _ => false
  | _, Value.null => false
  | v, w => decide (v = w)

/-- The columns the right operand contributes to a merge result: when
the two key names coincide pandas keeps a single key column (the
left one), otherwise both key columns survive. -/
def mergeRightCols (rcols : List String) (lk rk : String) : List String :=
  if lk = rk then rcols.filter (fun c => c ≠ rk) else rcols

/-- The rows a single left row produces in `pd.merge(..., how="left")`:
one row per matching right row, or a single null-padded row when
nothing matches.  (Row order follows the left operand, as pandas does
for `how="left"`.) -/
def leftMergeBlock (lcols : List String) (r : DataFrame) (lk rk : String)
    (lr : List Value) : List (List Value) :=
  let rcols := mergeRightCols r.cols lk rk
  match r.rows.filter (fun rr => keyMatch (getCell lcols lr lk) (getCell r.cols rr rk)) with
  | [] => [lr ++ rcols.map (fun _ => Value.null)]
  | ms => ms.map (fun rr => lr ++ rcols.map (fun c => getCell r.cols rr c))

/-- `l.merge(r, left_on=lk, right_on=rk, how="left")`.  Column-name
collisions outside the keys (pandas `_x`/`_y` suffixing) never occur in
this pipeline and are not modelled. -/
def leftMerge (l r : DataFrame) (lk rk : String) : DataFrame :=
  { cols := l.cols ++ mergeRightCols r.cols lk rk
    rows := l.rows.flatMap (fun lr => leftMergeBlock l.cols r lk rk lr) }

/-- Union of column lists in order of first appearance, as `pd.concat`
aligns columns (`sort=False`). -/
def colsUnion (dfs : List DataFrame) : List String :=
  dfs.foldl (fun acc d => acc ++ d.cols.filter (fun c => ¬ acc.contains c)) []

/-- Re-expresses one row over a wider column list, filling columns the
source frame lacks with `null` (the `NaN` padding `pd.concat` inserts). -/
def alignRow (allCols : List String) (cols : List String) (row : List Value) : List Value :=
  allCols.map (fun c => if cols.contains c then getCell cols row c else Value.null)

/-- `pd.concat(dfs)`: raises `ValueError` on an empty list, otherwise
stacks all rows over the union of the column lists. -/
def concatDFs (dfs : List DataFrame) : Except String DataFrame :=
  match dfs with
  | [] => Except.error "No objects to concatenate"
  | _ :: _ =>
    Except.ok { cols := colsUnion dfs
                rows := dfs.flatMap (fun d => d.rows.map (alignRow (colsUnion dfs) d.cols)) }

/-!
## `create_index` (the Indexer) — `src/build_database.py` lines 10–26

The function body is four pandas statements, every one operating on the
argument object itself (`inplace=True`, attribute assignment):

    df.reset_index(inplace=True, drop=True)
    df.index += 1
    df.index.name = index_name
    df.reset_index(inplace=True)
    return df

To model the index manipulation we extend a frame with its row index. -/

/-- A frame together with its pandas row index (label list + name). -/
structure IndexedDF where
  idxName : Option String
  idx : List Int
  cols : List String
  rows : List (List Value)

/-- `df.reset_index(inplace=True, drop=True)`: discard the current
index, install the default `RangeIndex 0..N-1` with no name. -/
def resetIndexDrop (d : IndexedDF) : IndexedDF :=
  { d with idxName := none
           idx := (List.range d.rows.length).map Int.ofNat }

/-- `df.index += 1`. -/
def indexAddOne (d : IndexedDF) : IndexedDF :=
  { d with idx := d.idx.map (fun i => i + 1) }

/-- `df.index.name = n`. -/
def setIndexName (d : IndexedDF) (n : String) : IndexedDF :=
  { d with idxName := some n }

/-- `df.reset_index(inplace=True)` without `drop`: the index becomes the
first column (named by the index name, `"index"` if unnamed) and the
default `RangeIndex` replaces it. -/
def resetIndexKeep (d : IndexedDF) : IndexedDF :=
  { idxName := none
    idx := (List.range d.rows.length).map Int.ofNat
    cols := d.idxName.getD "index" :: d.cols
    rows := (d.idx.zip d.rows).map (fun p => Value.int p.1 :: p.2) }

/-- The body of `create_index` on an indexed frame. -/
def create_index_steps (d : IndexedDF) (index_name : String) : IndexedDF :=
  resetIndexKeep (setIndexName (indexAddOne (resetIndexDrop d)) index_name)

/-- View a plain frame as carrying the default index (every caller of
`create_index` passes a frame whose index the first statement discards
anyway). -/
def IndexedDF.ofDF (df : DataFrame) : IndexedDF :=
  ⟨none, (List.range df.rows.length).map Int.ofNat, df.cols, df.rows⟩

/-- Forget the index again. -/
def IndexedDF.toDF (d : IndexedDF) : DataFrame :=
  ⟨d.cols, d.rows⟩

/-- `create_index(df, index_name)`: the value returned to the caller. -/
def create_index (df : DataFrame) (index_name : String) : DataFrame :=
  (create_index_steps (IndexedDF.ofDF df) index_name).toDF

/-- The state of the caller's object after `create_index(df, index_name)`
returns.  Every statement of the body mutates `df` in place
(`inplace=True`, `df.index` assignment), and the function returns that
same object, so the caller's frame ends up equal to the return value. -/
def create_index_callerAfter (df : DataFrame) (index_name : String) : DataFrame :=
  (create_index_steps (IndexedDF.ofDF df) index_name).toDF

/-!
## `build_bars_dataframe` — lines 92–102 (static table) -/

/-- `build_bars_dataframe()`: a fixed three-row table. -/
def build_bars_dataframe : DataFrame :=
  { cols := ["bar_id", "location"]
    rows := [[Value.int 1, Value.str "budapest"],
             [Value.int 2, Value.str "new york"],
             [Value.int 3, Value.str "london"]] }

/-!
## Catalog fetch and `build_drinks_dataframe` — lines 29–71 -/

/-- Python `str.lower()` (ASCII case folding; the catalog data is
ASCII). -/
def pyLower (s : String) : String :=
  ⟨s.data.map Char.toLower⟩

/-- One entry of the catalog API's `drinks` array, restricted to the
three fields the code extracts. -/
structure ApiDrink where
  idDrink : String
  strDrink : String
  strGlass : String
deriving DecidableEq, Repr

/-- `get_drinks_data(url)` applied to the parsed JSON body of the
response: `none` models a `null` top-level `drinks` field, in which case
the Python function falls through its `if` and returns `None`.
Otherwise it normalizes the array, keeps `idDrink`/`strDrink`/`strGlass`,
lowercases every cell (`applymap`), and renames the columns. -/
def get_drinks_data (resp : Option (List ApiDrink)) : Option DataFrame :=
  resp.map (fun ds =>
    { cols := ["cocktail_db_id", "drink_name", "glass_name"]
      rows := ds.map (fun d =>
        [Value.str (pyLower d.idDrink), Value.str (pyLower d.strDrink),
         Value.str (pyLower d.strGlass)]) })

/-- `build_drinks_dataframe()`, as a function of the 26 per-letter API
responses (the network fetch itself is a thin I/O wrapper): collect the
non-`None` per-letter frames, `pd.concat` them (raising when the list is
empty), then apply the Indexer with key `drink_id`. -/
def build_drinks_dataframe (resps : List (Option (List ApiDrink))) : Except String DataFrame :=
  match concatDFs (resps.filterMap get_drinks_data) with
  | Except.error e => Except.error e
  | Except.ok df => Except.ok (create_index df "drink_id")

/-!
## `build_glasses_dataframe` — lines 74–89 -/

/-- `drop_duplicates()` keeps the first occurrence of each row value;
`seen` accumulates the rows already emitted. -/
def dropDuplicatesAux (seen : List (List Value)) :
    List (List Value) → List (List Value)
  | [] => []
  | r :: rest =>
    if r ∈ seen then dropDuplicatesAux seen rest
    else r :: dropDuplicatesAux (r :: seen) rest

/-- `df.drop_duplicates()`. -/
def dropDuplicates (rows : List (List Value)) : List (List Value) :=
  dropDuplicatesAux [] rows

/-- Rank used to compare values of different kinds; within this pipeline
`sort_values` only ever compares strings with strings. -/
def valRank : Value → Nat
  | Value.null => 0
  | Value.int _ => 1
  | Value.float _ => 2
  | Value.str _ => 3

/-- Comparison backing `sort_values`: lexicographic (code-point) order
on strings, numeric order on numbers, kind rank across kinds. -/
def valLeB : Value → Value → Bool
  | Value.str a, Value.str b => decide (a ≤ b)
  | Value.int a, Value.int b => decide (a ≤ b)
  | Value.float a, Value.float b => decide (a ≤ b)
  | v, w => decide (valRank v ≤ valRank w)

/-- Sort key of a row of the single-column glasses frame. -/
def rowKey (r : List Value) : Value :=
  r.getD 0 Value.null

/-- Insert a row into a list sorted by `rowKey`/`valLeB`. -/
def insertRow (r : List Value) : List (List Value) → List (List Value)
  | [] => [r]
  | s :: rest =>
    if valLeB (rowKey r) (rowKey s) then r :: s :: rest
    else s :: insertRow r rest

/-- `df.sort_values(by="glass_name")` on the single-column frame:
insertion sort on the first cell.  The glasses keys are distinct after
`drop_duplicates`, so sort stability is immaterial. -/
def sortRows : List (List Value) → List (List Value)
  | [] => []
  | r :: rest => insertRow r (sortRows rest)

/-- `build_glasses_dataframe(df_drinks)`: project to `glass_name`, drop
duplicate rows, sort by the name, then apply the Indexer with key
`glass_id`. -/
def build_glasses_dataframe (df_drinks : DataFrame) : DataFrame :=
  create_index
    { cols := ["glass_name"]
      rows := sortRows (dropDuplicates
        (df_drinks.rows.map (fun r => [getCell df_drinks.cols r "glass_name"]))) }
    "glass_id"

/-!
## `build_inventory_dataframe` — lines 105–134 -/

/-- Python `s.split(" ")`: split on every single space character; with
an explicit separator the result is always non-empty (`"".split(" ")`
is `[""]`). -/
def splitChar (sep : Char) : List Char → List (List Char)
  | [] => [[]]
  | c :: rest =>
    match splitChar sep rest with
    | [] => if c = sep then [[], []] else [[c]]
    | t :: ts => if c = sep then [] :: t :: ts else (c :: t) :: ts

/-- Numeric value of a digit string. -/
def digitsVal (cs : List Char) : Nat :=
  cs.foldl (fun a c => a * 10 + (c.toNat - 48)) 0

/-- Python `int(s)` on a string: strip surrounding spaces, an optional
sign, then a non-empty run of decimal digits; anything else raises
`ValueError` (`none`).  Underscore digit grouping and non-ASCII digits
are not modelled — the pipeline's inputs never contain them. -/
def pyIntCore : List Char → Option Int
  | [] => none
  | c :: ds =>
    if c = '-' then
      if ds ≠ [] ∧ ds.all Char.isDigit then some (-(digitsVal ds : Int)) else none
    else if c = '+' then
      if ds ≠ [] ∧ ds.all Char.isDigit then some (digitsVal ds : Int) else none
    else
      if (c :: ds).all Char.isDigit then some (digitsVal (c :: ds) : Int) else none

/-- Python `int(s)` (see `pyIntCore`). -/
def pyInt (s : String) : Option Int :=
  pyIntCore ((s.data.dropWhile (fun c => c = ' ')).reverse.dropWhile (fun c => c = ' ')).reverse

/-- The stock lambda of line 119: `int(x.split(" ")[0])`.  The list
`splitChar` returns is never empty, so `[0]` cannot raise; only the
`int()` conversion can. -/
def stock_to_int (x : String) : Option Int :=
  match splitChar ' ' x.data with
  | [] => none
  | t :: _ => pyInt ⟨t⟩

/-- Python `s.replace(pat, rep)`: replace every non-overlapping
occurrence of `pat`, scanning left to right.  (For empty `pat` Python
interleaves `rep` everywhere; the pipeline only uses a non-empty
pattern, and the empty-pattern case is mapped to the identity.) -/
def replaceCore (pat rep : List Char) : Nat → List Char → List Char
  | _, [] => []
  | 0, s => s
  | fuel + 1, c :: rest =>
    if pat ≠ [] ∧ pat.isPrefixOf (c :: rest) then
      rep ++ replaceCore pat rep fuel ((c :: rest).drop pat.length)
    else
      c :: replaceCore pat rep fuel rest

/-- Python `s.replace(pat, rep)` on `String`s.  The fuel `s.length`
bounds the recursion: every step of `replaceCore` consumes at least one
character of the subject (a non-empty matched pattern consumes
`pat.length ≥ 1`), so the fuel never runs out before the subject is
exhausted. -/
def pyReplace (s pat rep : String) : String :=
  ⟨replaceCore pat.data rep.data s.data.length s.data⟩

/-- The glass-type lambda of lines 120–122 applied to one cell:
`x.replace("coper mug", "copper mug")`. -/
def fix_glass_type (x : String) : String :=
  pyReplace x "coper mug" "copper mug"

/-- Update the cell of the (first) column named `c` in one row
(`df[c] = ...` writes the column in place; declared columns are
distinct, so by-name and by-position updates agree). -/
def setCellAt (cols : List String) (c : String) (row : List Value) (v : Value) : List Value :=
  match cols, row with
  | c' :: cols', w :: row' =>
    if c' = c then v :: row' else w :: setCellAt cols' c row' v
  | _, _ => row

/-- Apply a fallible Python function to every cell of column `c`
(`df[c] = df[c].apply(f)`); non-string cells raise (`AttributeError`),
as the lambdas call string methods. -/
def applyStrColumn (df : DataFrame) (c : String) (f : String → Option Value) :
    Except String DataFrame :=
  if df.cols.contains c then
    match df.rows.mapM (fun r =>
      match getCell df.cols r c with
      | Value.str s =>
        match f s with
        | some v => some (setCellAt df.cols c r v)
        | none => none
      | _ => none) with
    | some rows => Except.ok { df with rows := rows }
    | none => Except.error ("apply failed on column " ++ c)
  else Except.error ("KeyError: " ++ c)

/-- Lines 119–122 of `build_inventory_dataframe`: parse the `stock`
strings to integers, then apply the `coper mug` correction to
`glass_type`.  This is the state of the frame just before the two
left joins. -/
def inventoryFixed (df_inventory : DataFrame) : Except String DataFrame :=
  match applyStrColumn df_inventory "stock"
      (fun x => (stock_to_int x).map Value.int) with
  | Except.error e => Except.error e
  | Except.ok df1 =>
    applyStrColumn df1 "glass_type" (fun x => some (Value.str (fix_glass_type x)))

/-- Rename column `stock` to `number_in_stock` (line 131). -/
def renameCol (df : DataFrame) (oldName newName : String) : DataFrame :=
  { df with cols := df.cols.map (fun c => if c = oldName then newName else c) }

/-- `build_inventory_dataframe(raw_csv_path, df_bars, df_glasses)` as a
function of the already-parsed CSV frame: fix the `stock` and
`glass_type` columns, left-join bars on `bar = location`, left-join
glasses on `glass_type = glass_name`, rename `stock`, then apply the
Indexer with key `inventory_id`. -/
def build_inventory_dataframe (df_raw df_bars df_glasses : DataFrame) :
    Except String DataFrame :=
  match inventoryFixed df_raw with
  | Except.error e => Except.error e
  | Except.ok df1 =>
    Except.ok (create_index
      (renameCol
        (leftMerge (leftMerge df1 df_bars "bar" "location")
          df_glasses "glass_type" "glass_name")
        "stock" "number_in_stock")
      "inventory_id")

/-!
## `build_orders_dataframe` — lines 172–196

The function reads `df_drinks` and `df_bars` from the enclosing module
scope; the embedding passes them as explicit arguments.  The three
cleaned per-location frames (from `clean_raw_orders`) all carry the
columns `order_datetime, drink_name, order_amount, location`. -/

/-- Column list of a cleaned per-location orders frame (the
`clean_raw_orders` output after dropping `index` and adding
`location`). -/
def cleanOrdersCols : List String :=
  ["order_datetime", "drink_name", "order_amount", "location"]

/-- Column list of `build_drinks_dataframe`'s output. -/
def drinksCols : List String :=
  ["drink_id", "cocktail_db_id", "drink_name", "glass_name"]

/-- `build_orders_dataframe(df_budapest, df_london, df_ny)`:
`pd.concat` the three cleaned frames, left-join drinks on `drink_name`,
left-join bars on `location`, then apply the Indexer with key
`order_id`. -/
def build_orders_dataframe (df_budapest df_london df_ny df_drinks df_bars : DataFrame) :
    Except String DataFrame :=
  match concatDFs [df_budapest, df_london, df_ny] with
  | Except.error e => Except.error e
  | Except.ok df0 =>
    Except.ok (create_index
      (leftMerge (leftMerge df0 df_drinks "drink_name" "drink_name")
        df_bars "location" "location")
      "order_id")

/-!
## `clean_dataframe` (the Schema Enforcer) — lines 220–237 -/

/-- The declared column types of the data maps (`DRINKS_MAP` etc.). -/
inductive DType where
  | int : DType
  | float : DType
  | str : DType
deriving DecidableEq, Repr

/-- Python `float(s)`: optional sign, digits with an optional decimal
point (at least one digit overall).  Exponents, `inf`/`nan` spellings
and underscores are not modelled — the pipeline's data never contains
them. -/
def pyFloatCore (cs : List Char) : Option Rat :=
  match cs with
  | [] => none
  | _ =>
    let (sign, body) : Rat × List Char :=
      match cs with
      | '-' :: t => (-1, t)
      | '+' :: t => (1, t)
      | t => (1, t)
    let intPart := body.takeWhile Char.isDigit
    let rest := body.dropWhile Char.isDigit
    match rest with
    | [] => if intPart ≠ [] then some (sign * digitsVal intPart) else none
    | '.' :: frac =>
      if frac.all Char.isDigit ∧ (intPart ≠ [] ∨ frac ≠ []) then
        some (sign * ((digitsVal intPart : Rat) +
          (digitsVal frac : Rat) / ((10 : Rat) ^ frac.length)))
      else none
    | _ => none

/-- Python `float(s)` on `String` (see `pyFloatCore`). -/
def pyFloat (s : String) : Option Rat :=
  pyFloatCore ((s.data.dropWhile (fun c => c = ' ')).reverse.dropWhile (fun c => c = ' ')).reverse

/-- `Series.astype` on a single cell.  `int` truncates floats toward
zero, parses integer strings with `int()`, and cannot represent a null
(`NaN` → `ValueError`, hence `none`).  `float` embeds integers, parses
numeric strings, and keeps nulls (`NaN` is a float).  `str` stringifies
anything (a null prints as `"nan"`; the float-to-string spelling is
abstracted as the rational's representation and is never observed by
the pipeline). -/
def castValue : DType → Value → Option Value
  | DType.int, Value.int n => some (Value.int n)
  | DType.int, Value.float q => some (Value.int (q.num.tdiv (q.den : Int)))
  | DType.int, Value.str s => (pyInt s).map Value.int
  | DType.int, Value.null => none
  | DType.float, Value.int n => some (Value.float (n : Rat))
  | DType.float, Value.float q => some (Value.float q)
  | DType.float, Value.str s => (pyFloat s).map Value.float
  | DType.float, Value.null => some Value.null
  | DType.str, Value.int n => some (Value.str (toString n))
  | DType.str, Value.float q => some (Value.str (toString q))
  | DType.str, Value.str s => some (Value.str s)
  | DType.str, Value.null => some (Value.str "nan")

/-- One iteration of the `for column in columns` loop of
`clean_dataframe`: cast every cell of the column at position `j` (after
the projection, the column named `columns[j]` sits at position `j`,
since the declared names — dict keys — are distinct). -/
def castColAt (dt : DType) (j : Nat) (rows : List (List Value)) :
    Option (List (List Value)) :=
  rows.mapM (fun r => (castValue dt (r.getD j Value.null)).map (fun v => r.set j v))

/-- The `astype` loop over the declared columns, in declaration order,
starting at position `j`. -/
def castColsFrom (dts : List DType) (j : Nat) (rows : List (List Value)) :
    Option (List (List Value)) :=
  match dts with
  | [] => some rows
  | dt :: rest =>
    match castColAt dt j rows with
    | some rows1 => castColsFrom rest (j + 1) rows1
    | none => none

/-- Row-major view of the `astype` loop: the casts the loop performs on
one row, column position by column position (used to relate the
column-major loop to a per-row description). -/
def castRowFrom (dts : List DType) (j : Nat) (r : List Value) : List Value :=
  match dts with
  | [] => r
  | dt :: rest =>
    castRowFrom rest (j + 1) (r.set j ((castValue dt (r.getD j Value.null)).getD Value.null))

/-- `clean_dataframe(df, data_map)`: project `df` to the declared
column list, in declared order (`KeyError` when a declared column is
absent), then cast each column to its declared type in declaration
order (`ValueError`/`TypeError` — an error — when a cell cannot be
converted). -/
def clean_dataframe (df : DataFrame) (datatypes : List (String × DType)) :
    Except String DataFrame :=
  if (datatypes.map Prod.fst).all (fun c => df.cols.contains c) then
    match castColsFrom (datatypes.map Prod.snd) 0
        (df.rows.map (fun r => (datatypes.map Prod.fst).map (fun c => getCell df.cols r c))) with
    | some rows => Except.ok { cols := datatypes.map Prod.fst, rows := rows }
    | none => Except.error "could not convert value to declared type"
  else Except.error "KeyError: declared column missing from dataframe"

/-- `ORDERS_MAP` (lines 278–287), as the association list of dict items
in insertion order. -/
def ORDERS_MAP : List (String × DType) :=
  [("order_id", DType.int), ("order_datetime", DType.str),
   ("drink_id", DType.int), ("bar_id", DType.int),
   ("order_amount", DType.float)]

/-- The effect of the glass-type lambda on one cell value: string cells
get the `"coper mug"` → `"copper mug"` substring correction, other
kinds are untouched (the lambda would raise on them; see
`applyStrColumn`). -/
def fixGlassValue : Value → Value
  | Value.str s => Value.str (fix_glass_type s)
  | v => v

/-- The new `stock` cell produced by line 119 for one row (defined on
rows whose `stock` cell is a parseable string; elsewhere the pipeline
raises and the value is irrelevant). -/
def stockFixVal (cols : List String) (r : List Value) : Value :=
  match getCell cols r "stock" with
  | Value.str s => Value.int ((stock_to_int s).getD 0)
  | _ => Value.null

/-- The new `glass_type` cell produced by lines 120–122 for one row. -/
def glassFixVal (cols : List String) (r : List Value) : Value :=
  match getCell cols r "glass_type" with
  | Value.str s => Value.str (fix_glass_type s)
  | _ => Value.null

/-!
## General lemmas about the embedding -/

theorem getCell_cons_self (c : String) (cols : List String) (v : Value) (r : List Value) :
    getCell (c :: cols) (v :: r) c = v := by
  simp [getCell]

theorem getCell_cons_ne (c' c : String) (cols : List String) (v : Value) (r : List Value)
    (h : c' ≠ c) : getCell (c' :: cols) (v :: r) c = getCell cols r c := by
  simp [getCell, h]

theorem getCell_append_of_mem (cols1 cols2 : List String) (r1 r2 : List Value) (c : String)
    (hlen : r1.length = cols1.length) (hc : c ∈ cols1) :
    getCell (cols1 ++ cols2) (r1 ++ r2) c = getCell cols1 r1 c := by
  induction cols1 generalizing r1 with
  | nil => simp at hc
  | cons c' cols1' ih =>
    match r1 with
    | [] => simp at hlen
    | v :: r1' =>
      by_cases hcc : c' = c
      · simp [getCell, hcc]
      · rcases List.mem_cons.mp hc with h | h
        · exact absurd h.symm hcc
        · simp only [List.cons_append, getCell_cons_ne _ _ _ _ _ hcc]
          exact ih r1' (by simpa using hlen) h

theorem getCell_append_of_not_mem (cols1 cols2 : List String) (r1 r2 : List Value) (c : String)
    (hlen : r1.length = cols1.length) (hc : c ∉ cols1) :
    getCell (cols1 ++ cols2) (r1 ++ r2) c = getCell cols2 r2 c := by
  induction cols1 generalizing r1 with
  | nil =>
    match r1 with
    | [] => simp
    | v :: r1' => simp at hlen
  | cons c' cols1' ih =>
    match r1 with
    | [] => simp at hlen
    | v :: r1' =>
      have hcc : c' ≠ c := fun h => hc (h ▸ List.mem_cons_self c' cols1')
      simp only [List.cons_append, getCell_cons_ne _ _ _ _ _ hcc]
      exact ih r1' (by simpa using hlen) (fun h => hc (List.mem_cons_of_mem _ h))

theorem create_index_cols (df : DataFrame) (n : String) :
    (create_index df n).cols = n :: df.cols := rfl

theorem create_index_rows (df : DataFrame) (n : String) :
    (create_index df n).rows =
      ((((List.range df.rows.length).map Int.ofNat).map (fun i => i + 1)).zip df.rows).map
        (fun p => Value.int p.1 :: p.2) := rfl

theorem zip_int_mem (A : List Int) (B : List (List Value)) (r : List Value)
    (hlen : A.length = B.length) (h : r ∈ B) :
    ∃ k : Int, (Value.int k :: r) ∈ (A.zip B).map (fun p => Value.int p.1 :: p.2) := by
  induction B generalizing A with
  | nil => simp at h
  | cons b B' ih =>
    match A with
    | [] => simp at hlen
    | a :: A' =>
      rcases List.mem_cons.mp h with h | h
      · exact ⟨a, by simp [h]⟩
      · obtain ⟨k, hk⟩ := ih A' (by simpa using hlen) h
        exact ⟨k, by simp [List.mem_cons]; right; simpa using hk⟩

theorem mem_create_index_rows (df : DataFrame) (n : String) (r : List Value)
    (h : r ∈ df.rows) : ∃ k : Int, (Value.int k :: r) ∈ (create_index df n).rows := by
  rw [create_index_rows]
  exact zip_int_mem _ _ _ (by simp) h

theorem create_index_rows_length (df : DataFrame) (n : String) :
    (create_index df n).rows.length = df.rows.length := by
  rw [create_index_rows]
  simp

/-!
## C3: the Indexer assigns exactly the keys 1..N, in row order -/

theorem create_index_key_col (df : DataFrame) (index_name : String) :
    colValues (create_index df index_name) index_name =
      (List.range df.rows.length).map (fun i : Nat => Value.int (Int.ofNat i + 1)) := by
  unfold colValues
  rw [create_index_rows, create_index_cols, List.map_map]
  have h1 : ((fun r => getCell (index_name :: df.cols) r index_name) ∘
      (fun p : Int × List Value => Value.int p.1 :: p.2)) =
      (fun p : Int × List Value => Value.int p.1) := by
    funext p
    simp [getCell]
  rw [h1]
  have h2 : (fun p : Int × List Value => Value.int p.1) =
      (Value.int ∘ Prod.fst) := rfl
  rw [h2, ← List.map_map, List.map_fst_zip _ _ (by simp), List.map_map, List.map_map]
  rfl

/-- C3: for every input frame with `N` rows the Indexer's output holds
exactly the integers `1..N` in its key column, in row order and with no
gaps; and the statically built bars table's `bar_id` column is
`1, 2, 3`. -/
theorem indexer_keys_contiguous (df : DataFrame) (index_name : String) :
    colValues (create_index df index_name) index_name =
      (List.range df.rows.length).map (fun i : Nat => Value.int (Int.ofNat i + 1)) ∧
    colValues build_bars_dataframe "bar_id" = [Value.int 1, Value.int 2, Value.int 3] := by
  exact ⟨create_index_key_col df index_name, by decide⟩

/-!
## C4: the claim that the Indexer leaves the caller's frame unchanged -/

/-- C4 counterexample: `create_index` works in place (`inplace=True`
throughout), so the caller's object is NOT unchanged: on the one-row
frame with column `a`, the caller's frame afterwards differs from the
original. -/
theorem indexer_mutates_counterexample :
    create_index_callerAfter (DataFrame.mk ["a"] [[Value.int 7]]) "id" ≠
      DataFrame.mk ["a"] [[Value.int 7]] := by
  decide

/-- C4 amended: every statement of `create_index` operates on the
caller's object in place, so after the call the caller's frame equals
the returned indexed frame — which always differs from the original,
since it has gained the key column. -/
theorem indexer_mutates_argument (df : DataFrame) (index_name : String) :
    create_index_callerAfter df index_name = create_index df index_name ∧
      create_index df index_name ≠ df := by
  refine ⟨rfl, fun h => ?_⟩
  have hcols := congrArg (fun d => d.cols.length) h
  simp only [create_index_cols, List.length_cons] at hcols
  omega

/-!
## C10: all 26 letters empty ⇒ `pd.concat` of an empty list raises -/

/-- C10: when every per-letter catalog response has a null `drinks`
field, `build_drinks_dataframe` concatenates an empty list of frames,
which raises (`ValueError: No objects to concatenate`) instead of
producing an empty drinks table. -/
theorem drinks_all_empty_raises :
    build_drinks_dataframe (List.replicate 26 none) =
      Except.error "No objects to concatenate" := by
  rfl

/-!
## C8: stock strings parse by first-token integer conversion -/

theorem splitChar_ne_nil (sep : Char) (l : List Char) : splitChar sep l ≠ [] := by
  induction l with
  | nil => simp [splitChar]
  | cons c rest ih =>
    unfold splitChar
    match h : splitChar sep rest with
    | [] => exact absurd h ih
    | t :: ts =>
      by_cases hc : c = sep <;> simp [hc]

theorem splitChar_append (sep : Char) (pre suf : List Char)
    (h : ∀ c ∈ pre, c ≠ sep) :
    splitChar sep (pre ++ sep :: suf) = pre :: splitChar sep suf := by
  induction pre with
  | nil =>
    simp only [List.nil_append]
    rcases hs : splitChar sep suf with _ | ⟨t, ts⟩
    · exact absurd hs (splitChar_ne_nil sep suf)
    · conv_lhs => rw [splitChar]
      rw [hs]
      simp
  | cons c pre' ih =>
    have hc : c ≠ sep := h c (List.mem_cons_self c pre')
    have ih' := ih (fun x hx => h x (List.mem_cons_of_mem _ hx))
    simp only [List.cons_append]
    conv_lhs => rw [splitChar]
    rw [ih']
    simp [hc]

theorem dropWhile_eq_self_of_forall {p : Char → Bool} (l : List Char)
    (h : ∀ c ∈ l, ¬ p c = true) : l.dropWhile p = l := by
  cases l with
  | nil => rfl
  | cons c rest =>
    rw [List.dropWhile_cons]
    simp [h c (List.mem_cons_self c rest)]

theorem pyInt_digits (tok : List Char) (hne : tok ≠ [])
    (hdig : ∀ c ∈ tok, c.isDigit) :
    pyInt ⟨tok⟩ = some (digitsVal tok : Int) := by
  have hnospace : ∀ c ∈ tok, ¬ (decide (c = ' ') = true) := by
    intro c hc
    have := hdig c hc
    simp only [decide_eq_true_eq]
    intro h
    rw [h] at this
    simp [Char.isDigit] at this
  unfold pyInt
  simp only [String.data]
  rw [dropWhile_eq_self_of_forall tok hnospace]
  rw [dropWhile_eq_self_of_forall tok.reverse (fun c hc => hnospace c (List.mem_reverse.mp hc))]
  rw [List.reverse_reverse]
  match tok, hne with
  | c :: ds, _ =>
    have hc : c.isDigit := hdig c (List.mem_cons_self c ds)
    have hcm : c ≠ '-' := by
      intro h; rw [h] at hc; simp [Char.isDigit] at hc
    have hcp : c ≠ '+' := by
      intro h; rw [h] at hc; simp [Char.isDigit] at hc
    unfold pyIntCore
    simp only [hcm, hcp, if_false]
    have hall : (c :: ds).all Char.isDigit = true := by
      rw [List.all_eq_true]; exact hdig
    simp [hall]

/-- C8: the inventory stock lambda `int(x.split(" ")[0])` parses every
string of the form `"<digits> <unit>"` to the integer the digits
denote, by taking the first space-delimited token; in particular
`"12 bottles"` parses to `12`. -/
theorem stock_string_parses (tok unit : List Char) (hne : tok ≠ [])
    (hdig : ∀ c ∈ tok, c.isDigit) :
    stock_to_int ⟨tok ++ ' ' :: unit⟩ = some (digitsVal tok : Int) ∧
    stock_to_int "12 bottles" = some 12 := by
  constructor
  · have hnospace : ∀ c ∈ tok, c ≠ ' ' := by
      intro c hc h
      have := hdig c hc
      rw [h] at this
      simp [Char.isDigit] at this
    unfold stock_to_int
    simp only [String.data]
    rw [splitChar_append ' ' tok unit hnospace]
    exact pyInt_digits tok hne hdig
  · rfl

/-- C8 witness: the theorem applied to the concrete token `"12"` and
unit `"bottles"`. -/
theorem stock_string_parses_witness :
    stock_to_int ⟨['1', '2'] ++ ' ' :: "bottles".data⟩ = some (digitsVal ['1', '2'] : Int) :=
  (stock_string_parses ['1', '2'] "bottles".data (by decide) (by decide)).1

/-!
## C9: the "coper mug" correction happens before the glasses join -/

theorem mapM_eq_map_of_total {α β : Type} (f : α → Option β) (g : α → β) :
    ∀ l : List α, (∀ a ∈ l, f a = some (g a)) → l.mapM f = some (l.map g) := by
  intro l
  induction l with
  | nil => intro _; rfl
  | cons a l ih =>
    intro h
    rw [List.mapM_cons, h a (List.mem_cons_self a l),
      ih (fun x hx => h x (List.mem_cons_of_mem _ hx))]
    rfl

theorem mapM_eq_none_of_mem {α β : Type} (f : α → Option β) :
    ∀ l : List α, (∃ a ∈ l, f a = none) → l.mapM f = none := by
  intro l
  induction l with
  | nil => rintro ⟨a, ha, _⟩; simp at ha
  | cons a l ih =>
    rintro ⟨x, hx, hfx⟩
    rw [List.mapM_cons]
    rcases List.mem_cons.mp hx with h | h
    · subst h
      rw [hfx]
      rfl
    · cases hfa : f a with
      | none => rfl
      | some b =>
        rw [ih ⟨x, h, hfx⟩]
        rfl

theorem getCell_setCellAt_ne (cols : List String) (c c' : String) (r : List Value)
    (v : Value) (h : c ≠ c') :
    getCell cols (setCellAt cols c r v) c' = getCell cols r c' := by
  induction cols generalizing r with
  | nil => rfl
  | cons c0 cols' ih =>
    match r with
    | [] => rfl
    | w :: r' =>
      by_cases h0 : c0 = c
      · have h0' : c0 ≠ c' := fun hh => h (h0.symm.trans hh)
        simp [setCellAt, getCell, h0, h0', h]
      · by_cases h1 : c0 = c'
        · have h1' : ¬ (c' = c) := fun hh => h0 (h1.trans hh)
          simp [setCellAt, getCell, h0, h1, h1']
        · simp [setCellAt, getCell, h0, h1, ih r']

theorem getCell_setCellAt_self (cols : List String) (c : String) (r : List Value)
    (v : Value) (h : getCell cols r c ≠ Value.null) :
    getCell cols (setCellAt cols c r v) c = v := by
  induction cols generalizing r with
  | nil => exact absurd rfl h
  | cons c0 cols' ih =>
    match r with
    | [] => exact absurd rfl h
    | w :: r' =>
      by_cases h0 : c0 = c
      · simp [setCellAt, getCell, h0]
      · simp only [setCellAt, getCell, h0, if_false]
        simp only [getCell, h0, if_false] at h
        exact ih r' h

theorem applyStrColumn_ok (df : DataFrame) (c : String) (f : String → Option Value)
    (g : List Value → Value) (hc : df.cols.contains c = true)
    (h : ∀ r ∈ df.rows, ∃ s, getCell df.cols r c = Value.str s ∧ f s = some (g r)) :
    applyStrColumn df c f =
      Except.ok ⟨df.cols, df.rows.map (fun r => setCellAt df.cols c r (g r))⟩ := by
  unfold applyStrColumn
  rw [if_pos hc]
  rw [mapM_eq_map_of_total _ (fun r => setCellAt df.cols c r (g r)) df.rows ?_]
  intro r hr
  obtain ⟨s, hs, hfs⟩ := h r hr
  rw [hs]
  simp [hfs]

/-- C9: in `build_inventory_dataframe`, when the raw frame has `stock`
and `glass_type` columns whose cells are strings and every stock string
parses, the fixed frame `df2` that feeds the joins carries the
glass-type column with every cell rewritten by
`x.replace("coper mug", "copper mug")` — in particular the value
`"coper mug"` has become `"copper mug"` — and the left join against the
glasses table is applied only after that rewrite, to `df2`. -/
theorem coper_mug_fixed_before_join (df : DataFrame)
    (hstock : df.cols.contains "stock" = true)
    (hglass : df.cols.contains "glass_type" = true)
    (hsv : ∀ r ∈ df.rows, ∃ s k, getCell df.cols r "stock" = Value.str s ∧
      stock_to_int s = some k)
    (hgv : ∀ r ∈ df.rows, ∃ s, getCell df.cols r "glass_type" = Value.str s) :
    ∃ df2, inventoryFixed df = Except.ok df2 ∧
      df2.cols = df.cols ∧
      colValues df2 "glass_type" = (colValues df "glass_type").map fixGlassValue ∧
      fixGlassValue (Value.str "coper mug") = Value.str "copper mug" ∧
      ∀ df_bars df_glasses : DataFrame,
        build_inventory_dataframe df df_bars df_glasses =
          Except.ok (create_index
            (renameCol (leftMerge (leftMerge df2 df_bars "bar" "location")
              df_glasses "glass_type" "glass_name") "stock" "number_in_stock")
            "inventory_id") := by
  have hne : ("stock" : String) ≠ "glass_type" := by decide
  have step1 : applyStrColumn df "stock" (fun x => (stock_to_int x).map Value.int) =
      Except.ok ⟨df.cols,
        df.rows.map (fun r => setCellAt df.cols "stock" r (stockFixVal df.cols r))⟩ := by
    apply applyStrColumn_ok df "stock" _ (stockFixVal df.cols) hstock
    intro r hr
    obtain ⟨s, k, hs, hk⟩ := hsv r hr
    exact ⟨s, hs, by simp [stockFixVal, hs, hk]⟩
  have hglass1 : ∀ r,
      getCell df.cols (setCellAt df.cols "stock" r (stockFixVal df.cols r)) "glass_type" =
        getCell df.cols r "glass_type" :=
    fun r => getCell_setCellAt_ne df.cols "stock" "glass_type" r _ hne
  have step2 : applyStrColumn
      (DataFrame.mk df.cols
        (df.rows.map (fun r => setCellAt df.cols "stock" r (stockFixVal df.cols r))))
      "glass_type" (fun x => some (Value.str (fix_glass_type x))) =
      Except.ok ⟨df.cols,
        (df.rows.map (fun r => setCellAt df.cols "stock" r (stockFixVal df.cols r))).map
          (fun r1 => setCellAt df.cols "glass_type" r1 (glassFixVal df.cols r1))⟩ := by
    apply applyStrColumn_ok
      (DataFrame.mk df.cols
        (df.rows.map (fun r => setCellAt df.cols "stock" r (stockFixVal df.cols r))))
      "glass_type" _ (glassFixVal df.cols) hglass
    intro r1 hr1
    obtain ⟨r, hr, hr1eq⟩ := List.mem_map.mp hr1
    obtain ⟨s, hs⟩ := hgv r hr
    have hcell : getCell df.cols r1 "glass_type" = Value.str s := by
      rw [← hr1eq, hglass1 r]
      exact hs
    exact ⟨s, hcell, by simp [glassFixVal, hcell]⟩
  have hfix : inventoryFixed df =
      Except.ok ⟨df.cols,
        (df.rows.map (fun r => setCellAt df.cols "stock" r (stockFixVal df.cols r))).map
          (fun r1 => setCellAt df.cols "glass_type" r1 (glassFixVal df.cols r1))⟩ := by
    unfold inventoryFixed
    rw [step1]
    exact step2
  refine ⟨_, hfix, rfl, ?_, ?_, ?_⟩
  · unfold colValues
    simp only [List.map_map]
    apply List.map_congr_left
    intro r hr
    obtain ⟨s, hs⟩ := hgv r hr
    have hcell : getCell df.cols (setCellAt df.cols "stock" r (stockFixVal df.cols r))
        "glass_type" = Value.str s := by
      rw [hglass1 r]
      exact hs
    have hnn : getCell df.cols (setCellAt df.cols "stock" r (stockFixVal df.cols r))
        "glass_type" ≠ Value.null := by
      rw [hcell]
      intro hcon
      cases hcon
    simp only [Function.comp]
    rw [getCell_setCellAt_self _ _ _ _ hnn]
    simp [glassFixVal, hcell, hs, fixGlassValue]
  · rfl
  · intro df_bars df_glasses
    unfold build_inventory_dataframe
    rw [hfix]

/-- C9 witness: the theorem applied to a one-row inventory frame whose
glass type is exactly `"coper mug"`. -/
theorem coper_mug_fixed_before_join_witness :
    ∃ df2, inventoryFixed
        (DataFrame.mk ["stock", "glass_type", "bar"]
          [[Value.str "12 bottles", Value.str "coper mug", Value.str "london"]]) =
        Except.ok df2 ∧
      df2.cols = ["stock", "glass_type", "bar"] ∧
      colValues df2 "glass_type" =
        (colValues
          (DataFrame.mk ["stock", "glass_type", "bar"]
            [[Value.str "12 bottles", Value.str "coper mug", Value.str "london"]])
          "glass_type").map fixGlassValue ∧
      fixGlassValue (Value.str "coper mug") = Value.str "copper mug" ∧
      ∀ df_bars df_glasses : DataFrame,
        build_inventory_dataframe
            (DataFrame.mk ["stock", "glass_type", "bar"]
              [[Value.str "12 bottles", Value.str "coper mug", Value.str "london"]])
            df_bars df_glasses =
          Except.ok (create_index
            (renameCol (leftMerge (leftMerge df2 df_bars "bar" "location")
              df_glasses "glass_type" "glass_name") "stock" "number_in_stock")
            "inventory_id") :=
  coper_mug_fixed_before_join _ (by rfl) (by rfl)
    (by
      intro r hr
      simp only [List.mem_singleton] at hr
      subst hr
      exact ⟨"12 bottles", 12, rfl, rfl⟩)
    (by
      intro r hr
      simp only [List.mem_singleton] at hr
      subst hr
      exact ⟨"coper mug", rfl⟩)

/-!
## C7: letters with a null `drinks` field contribute nothing -/

theorem flatMap_congr {α β : Type} (f g : α → List β) :
    ∀ l : List α, (∀ a ∈ l, f a = g a) → l.flatMap f = l.flatMap g := by
  intro l
  induction l with
  | nil => intro _; rfl
  | cons a l ih =>
    intro h
    rw [List.flatMap_cons, List.flatMap_cons, h a (List.mem_cons_self a l),
      ih (fun x hx => h x (List.mem_cons_of_mem _ hx))]

theorem alignRow_self (C : List String) (r : List Value)
    (hnodup : C.Nodup) (hlen : r.length = C.length) :
    alignRow C C r = r := by
  suffices hgen : ∀ (C1 : List String) (r1 : List Value), (C1 ++ []).Nodup →
      r1.length = C1.length →
      (∀ c ∈ C1, ([] : List String).contains c = false) →
      C1.map (fun c => if (C1 ++ []).contains c then getCell (C1 ++ []) (r1 ++ []) c
        else Value.null) = r1 by
    have h := hgen C r (by simpa using hnodup) hlen (by intro c _; rfl)
    simpa [alignRow] using h
  intro C1
  induction C1 with
  | nil =>
    intro r1 _ hlen1 _
    match r1 with
    | [] => rfl
    | v :: _ => simp at hlen1
  | cons c0 C1' ih => 
    intro r1 hnd hlen1 _
    match r1 with
    | [] => simp at hlen1
    | v :: r1' =>
      simp only [List.append_nil] at hnd ⊢
      have hnotin : c0 ∉ C1' := (List.nodup_cons.mp hnd).1
      have hnd' : C1'.Nodup := (List.nodup_cons.mp hnd).2
      simp only [List.map_cons]
      have hhead : (if (c0 :: C1').contains c0 then
          getCell (c0 :: C1') (v :: r1') c0 else Value.null) = v := by
        simp [getCell]
      rw [hhead]
      congr 1
      have htail := ih r1' (by simpa using hnd') (by simpa using hlen1)
        (by intro c _; rfl)
      simp only [List.append_nil] at htail
      have hmapeq : C1'.map (fun c => if (c0 :: C1').contains c = true then
          getCell (c0 :: C1') (v :: r1') c else Value.null) =
          C1'.map (fun c => if C1'.contains c = true then
            getCell C1' r1' c else Value.null) := by
        apply List.map_congr_left
        intro c hc
        have hne : c0 ≠ c := fun hh => hnotin (hh ▸ hc)
        have hcont : (c0 :: C1').contains c = true := by
          simp [List.contains_cons]
          right
          exact hc
        have hcont' : C1'.contains c = true := by
          simp
          exact hc
        rw [if_pos hcont, if_pos hcont', getCell_cons_ne _ _ _ _ _ hne]
      rw [hmapeq, htail]

theorem colsUnion_aux (C : List String) :
    ∀ ds : List DataFrame, (∀ d ∈ ds, d.cols = C) →
      List.foldl (fun acc d => acc ++ d.cols.filter (fun c => ¬ acc.contains c)) C ds = C := by
  intro ds
  induction ds with
  | nil => intro _; rfl
  | cons d ds' ih =>
    intro h
    rw [List.foldl_cons]
    have hstep : C ++ d.cols.filter (fun c => ¬ C.contains c) = C := by
      rw [h d (List.mem_cons_self d ds')]
      have : C.filter (fun c => ¬ C.contains c) = [] := by
        apply List.filter_eq_nil_iff.mpr
        intro c hc
        simp [hc]
      rw [this, List.append_nil]
    rw [hstep]
    exact ih (fun x hx => h x (List.mem_cons_of_mem _ hx))

theorem colsUnion_same (C : List String) (d : DataFrame) (ds : List DataFrame)
    (hcols : ∀ x ∈ d :: ds, x.cols = C) :
    colsUnion (d :: ds) = C := by
  unfold colsUnion
  rw [List.foldl_cons]
  have hstep : ([] : List String) ++ d.cols.filter (fun c => ¬ ([] : List String).contains c) = C := by
    rw [hcols d (List.mem_cons_self d ds)]
    simp
  rw [hstep]
  exact colsUnion_aux C ds (fun x hx => hcols x (List.mem_cons_of_mem _ hx))

theorem concatDFs_same (C : List String) (d : DataFrame) (ds : List DataFrame)
    (hcols : ∀ x ∈ d :: ds, x.cols = C) (hnodup : C.Nodup)
    (hwf : ∀ x ∈ d :: ds, DataFrame.WF x) :
    concatDFs (d :: ds) = Except.ok ⟨C, (d :: ds).flatMap (fun x => x.rows)⟩ := by
  unfold concatDFs
  have hU : colsUnion (d :: ds) = C := colsUnion_same C d ds hcols
  simp only [hU]
  congr 1
  congr 1
  apply flatMap_congr
  intro x hx
  have hxc := hcols x hx
  rw [hxc]
  have : x.rows.map (alignRow C C) = x.rows.map id := by
    apply List.map_congr_left
    intro r hr
    have hlen : r.length = C.length := by
      rw [← hxc]
      exact hwf x hx r hr
    rw [alignRow_self C r hnodup hlen]
    rfl
  rw [this, List.map_id]

theorem build_drinks_dataframe_ok (resps : List (Option (List ApiDrink)))
    (hsome : ∃ ds, some ds ∈ resps) :
    build_drinks_dataframe resps =
      Except.ok (create_index
        ⟨["cocktail_db_id", "drink_name", "glass_name"],
         (resps.filterMap get_drinks_data).flatMap (fun x => x.rows)⟩
        "drink_id") := by
  unfold build_drinks_dataframe
  obtain ⟨ds, hds⟩ := hsome
  have hne : resps.filterMap get_drinks_data ≠ [] := by
    intro hnil
    have hget : (DataFrame.mk ["cocktail_db_id", "drink_name", "glass_name"]
        (ds.map (fun d => [Value.str (pyLower d.idDrink), Value.str (pyLower d.strDrink),
          Value.str (pyLower d.strGlass)]))) ∈ resps.filterMap get_drinks_data :=
      List.mem_filterMap.mpr ⟨some ds, hds, rfl⟩
    rw [hnil] at hget
    simp at hget
  match hfm : resps.filterMap get_drinks_data, hne with
  | d :: ds', _ =>
    have hprops : ∀ x ∈ d :: ds',
        x.cols = ["cocktail_db_id", "drink_name", "glass_name"] ∧ DataFrame.WF x := by
      intro x hx
      rw [← hfm] at hx
      obtain ⟨a, _, hga⟩ := List.mem_filterMap.mp hx
      match a with
      | none => simp [get_drinks_data] at hga
      | some entries =>
        simp only [get_drinks_data, Option.map_some] at hga
        cases hga
        refine ⟨rfl, ?_⟩
        intro r hr
        simp only at hr
        obtain ⟨e, _, he⟩ := List.mem_map.mp hr
        rw [← he]
        rfl
    rw [concatDFs_same ["cocktail_db_id", "drink_name", "glass_name"] d ds'
      (fun x hx => (hprops x hx).1) (by decide) (fun x hx => (hprops x hx).2)]

/-- C7: a per-letter catalog response with a null `drinks` field
contributes no rows and raises no error — removing such a letter leaves
`build_drinks_dataframe` unchanged — and as long as at least one letter
returns entries, the drinks table is exactly the indexed concatenation
of the non-empty per-letter results. -/
theorem null_letter_contributes_nothing (pre post : List (Option (List ApiDrink)))
    (hsome : ∃ ds, some ds ∈ pre ++ post) :
    build_drinks_dataframe (pre ++ none :: post) = build_drinks_dataframe (pre ++ post) ∧
    build_drinks_dataframe (pre ++ post) =
      Except.ok (create_index
        ⟨["cocktail_db_id", "drink_name", "glass_name"],
         ((pre ++ post).filterMap get_drinks_data).flatMap (fun x => x.rows)⟩
        "drink_id") := by
  constructor
  · unfold build_drinks_dataframe
    have h : (pre ++ none :: post).filterMap get_drinks_data =
        (pre ++ post).filterMap get_drinks_data := by
      rw [List.filterMap_append, List.filterMap_append, List.filterMap_cons]
      rfl
    rw [h]
  · exact build_drinks_dataframe_ok (pre ++ post) hsome

/-- C7 witness: one letter with one entry, another with a null `drinks`
field. -/
theorem null_letter_contributes_nothing_witness :
    build_drinks_dataframe ([some [ApiDrink.mk "11007" "Margarita" "Cocktail glass"]] ++
        none :: []) =
      build_drinks_dataframe ([some [ApiDrink.mk "11007" "Margarita" "Cocktail glass"]] ++ []) ∧
    build_drinks_dataframe ([some [ApiDrink.mk "11007" "Margarita" "Cocktail glass"]] ++ []) =
      Except.ok (create_index
        ⟨["cocktail_db_id", "drink_name", "glass_name"],
         (([some [ApiDrink.mk "11007" "Margarita" "Cocktail glass"]] ++ []).filterMap
           get_drinks_data).flatMap (fun x => x.rows)⟩
        "drink_id") :=
  null_letter_contributes_nothing [some [ApiDrink.mk "11007" "Margarita" "Cocktail glass"]] []
    ⟨[ApiDrink.mk "11007" "Margarita" "Cocktail glass"], by simp⟩

/-!
## C6: glasses are the deduplicated, sorted, lowercased glass names -/

theorem mem_dropDuplicatesAux (x : List Value) :
    ∀ (l seen : List (List Value)),
      x ∈ dropDuplicatesAux seen l ↔ x ∈ l ∧ x ∉ seen := by
  intro l
  induction l with
  | nil => intro seen; simp [dropDuplicatesAux]
  | cons r rest ih =>
    intro seen
    unfold dropDuplicatesAux
    by_cases hr : r ∈ seen
    · rw [if_pos hr, ih]
      constructor
      · rintro ⟨hx, hxs⟩
        exact ⟨List.mem_cons_of_mem _ hx, hxs⟩
      · rintro ⟨hx, hxs⟩
        rcases List.mem_cons.mp hx with h | h
        · exact absurd (h ▸ hr) hxs
        · exact ⟨h, hxs⟩
    · rw [if_neg hr]
      constructor
      · intro hx
        rcases List.mem_cons.mp hx with h | h
        · exact ⟨by rw [h]; exact List.mem_cons_self r rest, h ▸ hr⟩
        · obtain ⟨h1, h2⟩ := (ih (r :: seen)).mp h
          exact ⟨List.mem_cons_of_mem _ h1, fun hc => h2 (List.mem_cons_of_mem _ hc)⟩
      · rintro ⟨hx, hxs⟩
        rcases List.mem_cons.mp hx with h | h
        · exact h ▸ List.mem_cons_self x _
        · by_cases hxr : x = r
          · exact hxr ▸ List.mem_cons_self x _
          · exact List.mem_cons_of_mem _ ((ih (r :: seen)).mpr
              ⟨h, fun hc => (List.mem_cons.mp hc).elim hxr hxs⟩)

theorem dropDuplicatesAux_nodup :
    ∀ (l seen : List (List Value)), (dropDuplicatesAux seen l).Nodup := by
  intro l
  induction l with
  | nil => intro seen; simp [dropDuplicatesAux]
  | cons r rest ih =>
    intro seen
    unfold dropDuplicatesAux
    by_cases hr : r ∈ seen
    · rw [if_pos hr]; exact ih seen
    · rw [if_neg hr]
      refine List.nodup_cons.mpr ⟨?_, ih (r :: seen)⟩
      intro hc
      exact ((mem_dropDuplicatesAux r rest (r :: seen)).mp hc).2 (List.mem_cons_self r seen)

theorem mem_dropDuplicates (x : List Value) (l : List (List Value)) :
    x ∈ dropDuplicates l ↔ x ∈ l := by
  unfold dropDuplicates
  rw [mem_dropDuplicatesAux]
  simp

theorem dropDuplicates_nodup (l : List (List Value)) : (dropDuplicates l).Nodup :=
  dropDuplicatesAux_nodup l []

theorem insertRow_perm (r : List Value) :
    ∀ l : List (List Value), (insertRow r l).Perm (r :: l) := by
  intro l
  induction l with
  | nil => exact List.Perm.refl _
  | cons s rest ih =>
    unfold insertRow
    by_cases hle : valLeB (rowKey r) (rowKey s) = true
    · rw [if_pos hle]
    · rw [if_neg hle]
      exact (ih.cons s).trans (List.Perm.swap r s rest)

theorem sortRows_perm : ∀ l : List (List Value), (sortRows l).Perm l := by
  intro l
  induction l with
  | nil => exact List.Perm.refl _
  | cons r rest ih =>
    unfold sortRows
    exact (insertRow_perm r (sortRows rest)).trans (ih.cons r)

theorem valLeB_total_str (v w : Value) (hv : ∃ s, v = Value.str s)
    (hw : ∃ t, w = Value.str t) : valLeB v w = true ∨ valLeB w v = true := by
  obtain ⟨s, rfl⟩ := hv
  obtain ⟨t, rfl⟩ := hw
  simp only [valLeB, decide_eq_true_eq]
  exact le_total s t

theorem valLeB_trans_str (u v w : Value) (hu : ∃ s, u = Value.str s)
    (hv : ∃ s, v = Value.str s) (hw : ∃ s, w = Value.str s) :
    valLeB u v = true → valLeB v w = true → valLeB u w = true := by
  obtain ⟨a, rfl⟩ := hu
  obtain ⟨b, rfl⟩ := hv
  obtain ⟨c, rfl⟩ := hw
  simp only [valLeB, decide_eq_true_eq]
  exact le_trans

theorem insertRow_pairwise (r : List Value) (l : List (List Value))
    (hr : ∃ s, rowKey r = Value.str s) (hl : ∀ x ∈ l, ∃ s, rowKey x = Value.str s)
    (hp : List.Pairwise (fun a b => valLeB (rowKey a) (rowKey b) = true) l) :
    List.Pairwise (fun a b => valLeB (rowKey a) (rowKey b) = true) (insertRow r l) := by
  induction l with
  | nil => simp [insertRow]
  | cons s rest ih =>
    have hs := hl s (List.mem_cons_self s rest)
    have hrest : ∀ x ∈ rest, ∃ t, rowKey x = Value.str t :=
      fun x hx => hl x (List.mem_cons_of_mem _ hx)
    rcases List.pairwise_cons.mp hp with ⟨hs_rest, hp_rest⟩
    unfold insertRow
    by_cases hle : valLeB (rowKey r) (rowKey s) = true
    · rw [if_pos hle]
      refine List.pairwise_cons.mpr ⟨?_, hp⟩
      intro y hy
      rcases List.mem_cons.mp hy with h | h
      · exact h ▸ hle
      · exact valLeB_trans_str _ _ _ hr hs (hrest y h) hle (hs_rest y h)
    · rw [if_neg hle]
      refine List.pairwise_cons.mpr ⟨?_, ih hrest hp_rest⟩
      intro y hy
      have hy' : y ∈ r :: rest := (insertRow_perm r rest).mem_iff.mp hy
      rcases List.mem_cons.mp hy' with h | h
      · subst h
        rcases valLeB_total_str _ _ hr hs with htot | htot
        · exact absurd htot hle
        · exact htot
      · exact hs_rest y h

theorem sortRows_pairwise (l : List (List Value))
    (hl : ∀ x ∈ l, ∃ s, rowKey x = Value.str s) :
    List.Pairwise (fun a b => valLeB (rowKey a) (rowKey b) = true) (sortRows l) := by
  induction l with
  | nil => simp [sortRows]
  | cons r rest ih =>
    unfold sortRows
    apply insertRow_pairwise
    · exact hl r (List.mem_cons_self r rest)
    · intro x hx
      exact hl x (List.mem_cons_of_mem r ((sortRows_perm rest).mem_iff.mp hx))
    · exact ih (fun x hx => hl x (List.mem_cons_of_mem _ hx))

theorem colValues_create_index_other (df : DataFrame) (n c : String) (hne : n ≠ c) :
    colValues (create_index df n) c = colValues df c := by
  unfold colValues
  rw [create_index_rows, create_index_cols, List.map_map]
  have h1 : ((fun r => getCell (n :: df.cols) r c) ∘
      (fun p : Int × List Value => Value.int p.1 :: p.2)) =
      ((fun r => getCell df.cols r c) ∘ Prod.snd) := by
    funext p
    simp [getCell, hne]
  rw [h1, ← List.map_map, List.map_snd_zip _ _ (by simp)]

theorem getCell_singleton (w : Value) : getCell ["glass_name"] [w] "glass_name" = w := by
  simp [getCell]

theorem glasses_names_eq (df : DataFrame) :
    colValues (build_glasses_dataframe df) "glass_name" =
      (sortRows (dropDuplicates (df.rows.map (fun r => [getCell df.cols r "glass_name"])))).map
        (fun x => getCell ["glass_name"] x "glass_name") := by
  unfold build_glasses_dataframe
  rw [colValues_create_index_other _ _ _ (by decide)]
  rfl

theorem mem_glasses_names (df : DataFrame) (v : Value) :
    v ∈ colValues (build_glasses_dataframe df) "glass_name" ↔
      v ∈ colValues df "glass_name" := by
  rw [glasses_names_eq]
  constructor
  · intro hv
    obtain ⟨x, hx, hfx⟩ := List.mem_map.mp hv
    have hx' : x ∈ df.rows.map (fun r => [getCell df.cols r "glass_name"]) :=
      (mem_dropDuplicates x _).mp ((sortRows_perm _).mem_iff.mp hx)
    obtain ⟨r, hr, hxr⟩ := List.mem_map.mp hx'
    rw [← hxr, getCell_singleton] at hfx
    exact hfx ▸ List.mem_map.mpr ⟨r, hr, rfl⟩
  · intro hv
    obtain ⟨r, hr, hrv⟩ := List.mem_map.mp hv
    have hproj : [v] ∈ df.rows.map (fun r => [getCell df.cols r "glass_name"]) :=
      List.mem_map.mpr ⟨r, hr, by rw [hrv]⟩
    have hsorted : [v] ∈ sortRows (dropDuplicates
        (df.rows.map (fun r => [getCell df.cols r "glass_name"]))) :=
      (sortRows_perm _).mem_iff.mpr ((mem_dropDuplicates _ _).mpr hproj)
    exact List.mem_map.mpr ⟨[v], hsorted, getCell_singleton v⟩

theorem glasses_names_nodup (df : DataFrame) :
    (colValues (build_glasses_dataframe df) "glass_name").Nodup := by
  rw [glasses_names_eq]
  apply List.Nodup.map_on
  · intro x hx y hy hf
    have hx' : x ∈ df.rows.map (fun r => [getCell df.cols r "glass_name"]) :=
      (mem_dropDuplicates x _).mp ((sortRows_perm _).mem_iff.mp hx)
    have hy' : y ∈ df.rows.map (fun r => [getCell df.cols r "glass_name"]) :=
      (mem_dropDuplicates y _).mp ((sortRows_perm _).mem_iff.mp hy)
    obtain ⟨rx, _, hxr⟩ := List.mem_map.mp hx'
    obtain ⟨ry, _, hyr⟩ := List.mem_map.mp hy'
    rw [← hxr, ← hyr, getCell_singleton, getCell_singleton] at hf
    rw [← hxr, ← hyr, hf]
  · exact ((sortRows_perm _).nodup_iff).mpr (dropDuplicates_nodup _)

theorem glasses_names_sorted (df : DataFrame)
    (hstr : ∀ r ∈ df.rows, ∃ s, getCell df.cols r "glass_name" = Value.str s) :
    List.Pairwise (fun a b => valLeB a b = true)
      (colValues (build_glasses_dataframe df) "glass_name") := by
  rw [glasses_names_eq]
  rw [List.pairwise_map]
  have hsingle : ∀ x ∈ sortRows (dropDuplicates
      (df.rows.map (fun r => [getCell df.cols r "glass_name"]))),
      ∃ s, x = [Value.str s] := by
    intro x hx
    have hx' : x ∈ df.rows.map (fun r => [getCell df.cols r "glass_name"]) :=
      (mem_dropDuplicates x _).mp ((sortRows_perm _).mem_iff.mp hx)
    obtain ⟨r, hr, hxr⟩ := List.mem_map.mp hx'
    obtain ⟨s, hs⟩ := hstr r hr
    exact ⟨s, by rw [← hxr, hs]⟩
  have hpair := sortRows_pairwise
    (dropDuplicates (df.rows.map (fun r => [getCell df.cols r "glass_name"])))
    (by
      intro x hx
      have hx' : x ∈ df.rows.map (fun r => [getCell df.cols r "glass_name"]) :=
        (mem_dropDuplicates x _).mp hx
      obtain ⟨r, hr, hxr⟩ := List.mem_map.mp hx'
      obtain ⟨s, hs⟩ := hstr r hr
      refine ⟨s, ?_⟩
      rw [← hxr]
      exact hs)
  refine List.Pairwise.imp_of_mem ?_ hpair
  intro a b ha hb hr
  obtain ⟨sa, hsa⟩ := hsingle a ha
  obtain ⟨sb, hsb⟩ := hsingle b hb
  subst hsa
  subst hsb
  exact hr

theorem glasses_ids_contiguous (df : DataFrame) :
    colValues (build_glasses_dataframe df) "glass_id" =
      (List.range (colValues (build_glasses_dataframe df) "glass_name").length).map
        (fun i : Nat => Value.int (Int.ofNat i + 1)) := by
  rw [glasses_names_eq, List.length_map]
  exact create_index_key_col
    ⟨["glass_name"],
     sortRows (dropDuplicates (df.rows.map (fun r => [getCell df.cols r "glass_name"])))⟩
    "glass_id"

/-- C6: for a drinks table built from catalog responses, the Glasses
table's names are exactly the distinct glass names of the drinks table
(membership in both directions), with no duplicates, sorted
lexicographically, and indexed `1..N`; and since every glass name was
lowercased before deduplication, two response entries whose glass names
differ only in letter case contribute one single row. -/
theorem glasses_table_from_drinks (resps : List (Option (List ApiDrink)))
    (dd : DataFrame) (hok : build_drinks_dataframe resps = Except.ok dd) :
    (∀ v, v ∈ colValues (build_glasses_dataframe dd) "glass_name" ↔
      v ∈ colValues dd "glass_name") ∧
    (colValues (build_glasses_dataframe dd) "glass_name").Nodup ∧
    List.Pairwise (fun a b => valLeB a b = true)
      (colValues (build_glasses_dataframe dd) "glass_name") ∧
    colValues (build_glasses_dataframe dd) "glass_id" =
      (List.range (colValues (build_glasses_dataframe dd) "glass_name").length).map
        (fun i : Nat => Value.int (Int.ofNat i + 1)) ∧
    (∀ (entries1 entries2 : List ApiDrink) (e1 e2 : ApiDrink),
      some entries1 ∈ resps → some entries2 ∈ resps →
      e1 ∈ entries1 → e2 ∈ entries2 →
      pyLower e1.strGlass = pyLower e2.strGlass →
      (colValues (build_glasses_dataframe dd) "glass_name").count
        (Value.str (pyLower e1.strGlass)) = 1) := by
  have hsome : ∃ ds, some ds ∈ resps := by
    by_contra hcon
    push_neg at hcon
    have hfm : resps.filterMap get_drinks_data = [] := by
      rw [List.filterMap_eq_nil_iff]
      intro a ha
      match a with
      | none => rfl
      | some ds => exact absurd ha (hcon ds)
    unfold build_drinks_dataframe at hok
    rw [hfm] at hok
    simp [concatDFs] at hok
  have hdd : dd = create_index
      ⟨["cocktail_db_id", "drink_name", "glass_name"],
       (resps.filterMap get_drinks_data).flatMap (fun x => x.rows)⟩ "drink_id" :=
    Except.ok.inj ((build_drinks_dataframe_ok resps hsome).symm.trans hok).symm
  have hstr0 : ∀ r0 ∈ (resps.filterMap get_drinks_data).flatMap (fun x => x.rows),
      ∃ s, getCell ["cocktail_db_id", "drink_name", "glass_name"] r0 "glass_name" =
        Value.str s := by
    intro r0 hr0
    obtain ⟨x, hx, hrx⟩ := List.mem_flatMap.mp hr0
    obtain ⟨a, _, hga⟩ := List.mem_filterMap.mp hx
    match a with
    | none => simp [get_drinks_data] at hga
    | some entries =>
      simp only [get_drinks_data, Option.map_some] at hga
      cases hga
      simp only at hrx
      obtain ⟨e, _, he⟩ := List.mem_map.mp hrx
      subst he
      exact ⟨pyLower e.strGlass, rfl⟩
  have hstr_dd : ∀ r ∈ dd.rows, ∃ s, getCell dd.cols r "glass_name" = Value.str s := by
    rw [hdd]
    intro r hr
    rw [create_index_rows] at hr
    obtain ⟨p, hp, hpr⟩ := List.mem_map.mp hr
    obtain ⟨k, r0⟩ := p
    have hr0 : r0 ∈ (resps.filterMap get_drinks_data).flatMap (fun x => x.rows) :=
      (List.of_mem_zip hp).2
    rw [← hpr, create_index_cols]
    rw [getCell_cons_ne _ _ _ _ _ (by decide)]
    exact hstr0 r0 hr0
  refine ⟨fun v => mem_glasses_names dd v, glasses_names_nodup dd,
    glasses_names_sorted dd hstr_dd, glasses_ids_contiguous dd, ?_⟩
  intro entries1 entries2 e1 e2 h1 h2 he1 he2 hlow
  have hmemdd : Value.str (pyLower e1.strGlass) ∈ colValues dd "glass_name" := by
    rw [hdd, colValues_create_index_other _ _ _ (by decide)]
    apply List.mem_map.mpr
    refine ⟨[Value.str (pyLower e1.idDrink), Value.str (pyLower e1.strDrink),
      Value.str (pyLower e1.strGlass)], ?_, rfl⟩
    apply List.mem_flatMap.mpr
    have hframe : get_drinks_data (some entries1) =
        some (DataFrame.mk ["cocktail_db_id", "drink_name", "glass_name"]
          (entries1.map (fun d => [Value.str (pyLower d.idDrink),
            Value.str (pyLower d.strDrink), Value.str (pyLower d.strGlass)]))) := rfl
    refine ⟨_, List.mem_filterMap.mpr ⟨some entries1, h1, hframe⟩, ?_⟩
    exact List.mem_map.mpr ⟨e1, he1, rfl⟩
  exact List.count_eq_one_of_mem (glasses_names_nodup dd)
    ((mem_glasses_names dd _).mpr hmemdd)

/-- C6 witness: two catalog entries whose glass names differ only in
case (`"Highball Glass"` vs `"HIGHBALL GLASS"`), applied to the
resulting drinks table. -/
theorem glasses_table_from_drinks_witness :
    (∀ v, v ∈ colValues (build_glasses_dataframe
        (DataFrame.mk ["drink_id", "cocktail_db_id", "drink_name", "glass_name"]
          [[Value.int 1, Value.str "1", Value.str "adrink", Value.str "highball glass"],
           [Value.int 2, Value.str "2", Value.str "bdrink", Value.str "highball glass"]]))
        "glass_name" ↔
      v ∈ colValues
        (DataFrame.mk ["drink_id", "cocktail_db_id", "drink_name", "glass_name"]
          [[Value.int 1, Value.str "1", Value.str "adrink", Value.str "highball glass"],
           [Value.int 2, Value.str "2", Value.str "bdrink", Value.str "highball glass"]])
        "glass_name") ∧
    (colValues (build_glasses_dataframe
        (DataFrame.mk ["drink_id", "cocktail_db_id", "drink_name", "glass_name"]
          [[Value.int 1, Value.str "1", Value.str "adrink", Value.str "highball glass"],
           [Value.int 2, Value.str "2", Value.str "bdrink", Value.str "highball glass"]]))
        "glass_name").Nodup ∧
    List.Pairwise (fun a b => valLeB a b = true)
      (colValues (build_glasses_dataframe
        (DataFrame.mk ["drink_id", "cocktail_db_id", "drink_name", "glass_name"]
          [[Value.int 1, Value.str "1", Value.str "adrink", Value.str "highball glass"],
           [Value.int 2, Value.str "2", Value.str "bdrink", Value.str "highball glass"]]))
        "glass_name") ∧
    colValues (build_glasses_dataframe
        (DataFrame.mk ["drink_id", "cocktail_db_id", "drink_name", "glass_name"]
          [[Value.int 1, Value.str "1", Value.str "adrink", Value.str "highball glass"],
           [Value.int 2, Value.str "2", Value.str "bdrink", Value.str "highball glass"]]))
        "glass_id" =
      (List.range (colValues (build_glasses_dataframe
        (DataFrame.mk ["drink_id", "cocktail_db_id", "drink_name", "glass_name"]
          [[Value.int 1, Value.str "1", Value.str "adrink", Value.str "highball glass"],
           [Value.int 2, Value.str "2", Value.str "bdrink", Value.str "highball glass"]]))
        "glass_name").length).map
        (fun i : Nat => Value.int (Int.ofNat i + 1)) ∧
    (∀ (entries1 entries2 : List ApiDrink) (e1 e2 : ApiDrink),
      some entries1 ∈ [some [ApiDrink.mk "1" "Adrink" "Highball Glass",
        ApiDrink.mk "2" "Bdrink" "HIGHBALL GLASS"]] →
      some entries2 ∈ [some [ApiDrink.mk "1" "Adrink" "Highball Glass",
        ApiDrink.mk "2" "Bdrink" "HIGHBALL GLASS"]] →
      e1 ∈ entries1 → e2 ∈ entries2 →
      pyLower e1.strGlass = pyLower e2.strGlass →
      (colValues (build_glasses_dataframe
        (DataFrame.mk ["drink_id", "cocktail_db_id", "drink_name", "glass_name"]
          [[Value.int 1, Value.str "1", Value.str "adrink", Value.str "highball glass"],
           [Value.int 2, Value.str "2", Value.str "bdrink", Value.str "highball glass"]]))
        "glass_name").count
        (Value.str (pyLower e1.strGlass)) = 1) :=
  glasses_table_from_drinks
    [some [ApiDrink.mk "1" "Adrink" "Highball Glass",
      ApiDrink.mk "2" "Bdrink" "HIGHBALL GLASS"]]
    (DataFrame.mk ["drink_id", "cocktail_db_id", "drink_name", "glass_name"]
      [[Value.int 1, Value.str "1", Value.str "adrink", Value.str "highball glass"],
       [Value.int 2, Value.str "2", Value.str "bdrink", Value.str "highball glass"]])
    (by rfl)

/-!
## C1: unmatched drink names yield a null `drink_id`, rows retained -/

theorem keyMatch_eq (v w : Value) (h : keyMatch v w = true) : v = w := by
  unfold keyMatch at h
  match v, w with
  | Value.null, _ => simp at h
  | Value.int a, Value.null => simp at h
  | Value.float a, Value.null => simp at h
  | Value.str a, Value.null => simp at h
  | Value.int a, Value.int b => exact of_decide_eq_true h
  | Value.int a, Value.float b => exact of_decide_eq_true h
  | Value.int a, Value.str b => exact of_decide_eq_true h
  | Value.float a, Value.int b => exact of_decide_eq_true h
  | Value.float a, Value.float b => exact of_decide_eq_true h
  | Value.float a, Value.str b => exact of_decide_eq_true h
  | Value.str a, Value.int b => exact of_decide_eq_true h
  | Value.str a, Value.float b => exact of_decide_eq_true h
  | Value.str a, Value.str b => exact of_decide_eq_true h

theorem leftMergeBlock_no_match (lcols : List String) (rt : DataFrame) (lk rk : String)
    (lr : List Value)
    (h : ∀ rr ∈ rt.rows,
      keyMatch (getCell lcols lr lk) (getCell rt.cols rr rk) = false) :
    leftMergeBlock lcols rt lk rk lr =
      [lr ++ (mergeRightCols rt.cols lk rk).map (fun _ => Value.null)] := by
  unfold leftMergeBlock
  have hfil : rt.rows.filter
      (fun rr => keyMatch (getCell lcols lr lk) (getCell rt.cols rr rk)) = [] := by
    rw [List.filter_eq_nil_iff]
    intro rr hrr
    rw [h rr hrr]
    simp
  rw [hfil]

theorem leftMergeBlock_exists_append (lcols : List String) (rt : DataFrame)
    (lk rk : String) (lr : List Value) :
    ∃ tail : List Value, tail.length = (mergeRightCols rt.cols lk rk).length ∧
      (lr ++ tail) ∈ leftMergeBlock lcols rt lk rk lr := by
  unfold leftMergeBlock
  cases hfil : rt.rows.filter
      (fun rr => keyMatch (getCell lcols lr lk) (getCell rt.cols rr rk)) with
  | nil =>
    exact ⟨(mergeRightCols rt.cols lk rk).map (fun _ => Value.null),
      by simp, by simp⟩
  | cons rr ms =>
    exact ⟨(mergeRightCols rt.cols lk rk).map (fun c => getCell rt.cols rr c),
      by simp, by simp⟩

theorem leftMerge_cols (l r : DataFrame) (lk rk : String) :
    (leftMerge l r lk rk).cols = l.cols ++ mergeRightCols r.cols lk rk := rfl

theorem leftMerge_rows (l r : DataFrame) (lk rk : String) :
    (leftMerge l r lk rk).rows = l.rows.flatMap (leftMergeBlock l.cols r lk rk) := rfl

/-- C1: in `build_orders_dataframe`, every row of the concatenated
cleaned order frames whose `drink_name` matches no drink in the drinks
table is still present in the result, with a null `drink_id` and its
original order fields intact, and the join step raises no error. -/
theorem unmatched_drink_name_null_fk
    (b l n drinks : DataFrame)
    (hb : b.cols = cleanOrdersCols) (hl : l.cols = cleanOrdersCols)
    (hn : n.cols = cleanOrdersCols)
    (hwb : DataFrame.WF b) (hwl : DataFrame.WF l) (hwn : DataFrame.WF n)
    (hd : drinks.cols = drinksCols)
    (r : List Value) (hr : r ∈ b.rows ++ l.rows ++ n.rows)
    (hnomatch : ∀ dr ∈ drinks.rows,
      keyMatch (getCell cleanOrdersCols r "drink_name")
        (getCell drinksCols dr "drink_name") = false) :
    ∃ out : DataFrame,
      build_orders_dataframe b l n drinks build_bars_dataframe = Except.ok out ∧
      ∃ row ∈ out.rows,
        getCell out.cols row "drink_id" = Value.null ∧
        ∀ c ∈ cleanOrdersCols, getCell out.cols row c = getCell cleanOrdersCols r c := by
  have hcolsall : ∀ x ∈ [b, l, n], x.cols = cleanOrdersCols := by
    intro x hx
    rcases List.mem_cons.mp hx with h | hx
    · exact h ▸ hb
    rcases List.mem_cons.mp hx with h | hx
    · exact h ▸ hl
    rcases List.mem_cons.mp hx with h | hx
    · exact h ▸ hn
    · simp at hx
  have hwfall : ∀ x ∈ [b, l, n], DataFrame.WF x := by
    intro x hx
    rcases List.mem_cons.mp hx with h | hx
    · exact h ▸ hwb
    rcases List.mem_cons.mp hx with h | hx
    · exact h ▸ hwl
    rcases List.mem_cons.mp hx with h | hx
    · exact h ▸ hwn
    · simp at hx
  have hcc : concatDFs [b, l, n] =
      Except.ok ⟨cleanOrdersCols, [b, l, n].flatMap (fun x => x.rows)⟩ :=
    concatDFs_same cleanOrdersCols b [l, n] hcolsall (by decide) hwfall
  have hrR : r ∈ [b, l, n].flatMap (fun x => x.rows) := by
    simp only [List.flatMap_cons, List.flatMap_nil, List.append_nil, List.append_assoc]
      at hr ⊢
    exact hr
  have hrlen : r.length = 4 := by
    rcases List.mem_append.mp hr with h | h
    · rcases List.mem_append.mp h with h | h
      · rw [hwb r h, hb]; rfl
      · rw [hwl r h, hl]; rfl
    · rw [hwn r h, hn]; rfl
  have hdrcols : mergeRightCols drinks.cols "drink_name" "drink_name" =
      ["drink_id", "cocktail_db_id", "glass_name"] := by
    rw [hd]
    decide
  have hblock1 : leftMergeBlock cleanOrdersCols drinks "drink_name" "drink_name" r =
      [r ++ [Value.null, Value.null, Value.null]] := by
    rw [leftMergeBlock_no_match cleanOrdersCols drinks "drink_name" "drink_name" r
      (by intro rr hrr; rw [hd]; exact hnomatch rr hrr)]
    rw [hdrcols]
    rfl
  have hr1 : (r ++ [Value.null, Value.null, Value.null]) ∈
      (leftMerge ⟨cleanOrdersCols, [b, l, n].flatMap (fun x => x.rows)⟩ drinks
        "drink_name" "drink_name").rows := by
    rw [leftMerge_rows]
    apply List.mem_flatMap.mpr
    exact ⟨r, hrR, by rw [hblock1]; exact List.mem_singleton.mpr rfl⟩
  obtain ⟨tail, htlen, htmem⟩ := leftMergeBlock_exists_append
    (leftMerge ⟨cleanOrdersCols, [b, l, n].flatMap (fun x => x.rows)⟩ drinks
      "drink_name" "drink_name").cols
    build_bars_dataframe "location" "location" (r ++ [Value.null, Value.null, Value.null])
  have hr2 : ((r ++ [Value.null, Value.null, Value.null]) ++ tail) ∈
      (leftMerge
        (leftMerge ⟨cleanOrdersCols, [b, l, n].flatMap (fun x => x.rows)⟩ drinks
          "drink_name" "drink_name")
        build_bars_dataframe "location" "location").rows := by
    rw [leftMerge_rows]
    exact List.mem_flatMap.mpr ⟨r ++ [Value.null, Value.null, Value.null], hr1, htmem⟩
  obtain ⟨k, hkmem⟩ := mem_create_index_rows _ "order_id" _ hr2
  refine ⟨_, by unfold build_orders_dataframe; rw [hcc],
    Value.int k :: ((r ++ [Value.null, Value.null, Value.null]) ++ tail), hkmem, ?_, ?_⟩
  · rw [create_index_cols, getCell_cons_ne _ _ _ _ _ (by decide),
      leftMerge_cols, leftMerge_cols, hdrcols]
    show getCell ((cleanOrdersCols ++ ["drink_id", "cocktail_db_id", "glass_name"]) ++
        mergeRightCols build_bars_dataframe.cols "location" "location")
      ((r ++ [Value.null, Value.null, Value.null]) ++ tail) "drink_id" = Value.null
    rw [getCell_append_of_mem _ _ _ _ _
      (by simp [hrlen, cleanOrdersCols]) (by decide)]
    rw [getCell_append_of_not_mem _ _ _ _ _ (by rw [hrlen]; rfl) (by decide)]
    rfl
  · intro c hc
    have hcne : "order_id" ≠ c :=
      fun h => (by decide : ("order_id" : String) ∉ cleanOrdersCols) (h ▸ hc)
    rw [create_index_cols, getCell_cons_ne _ _ _ _ _ hcne,
      leftMerge_cols, leftMerge_cols, hdrcols]
    show getCell ((cleanOrdersCols ++ ["drink_id", "cocktail_db_id", "glass_name"]) ++
        mergeRightCols build_bars_dataframe.cols "location" "location")
      ((r ++ [Value.null, Value.null, Value.null]) ++ tail) c = getCell cleanOrdersCols r c
    rw [getCell_append_of_mem _ _ _ _ _
      (by simp [hrlen, cleanOrdersCols]) (List.mem_append_left _ hc)]
    rw [getCell_append_of_mem _ _ _ _ _ (by rw [hrlen]; rfl) hc]

/-- C1 witness: a single Budapest-file order for a drink name absent
from a one-drink drinks table. -/
theorem unmatched_drink_name_null_fk_witness :
    ∃ out : DataFrame,
      build_orders_dataframe
          (DataFrame.mk cleanOrdersCols
            [[Value.str "2020-01-01 00:00:00", Value.str "unknown drink",
              Value.float 1, Value.str "london"]])
          (DataFrame.mk cleanOrdersCols [])
          (DataFrame.mk cleanOrdersCols [])
          (DataFrame.mk drinksCols
            [[Value.int 1, Value.str "11007", Value.str "mojito", Value.str "cocktail glass"]])
          build_bars_dataframe = Except.ok out ∧
      ∃ row ∈ out.rows,
        getCell out.cols row "drink_id" = Value.null ∧
        ∀ c ∈ cleanOrdersCols, getCell out.cols row c =
          getCell cleanOrdersCols
            [Value.str "2020-01-01 00:00:00", Value.str "unknown drink",
             Value.float 1, Value.str "london"] c :=
  unmatched_drink_name_null_fk
    (DataFrame.mk cleanOrdersCols
      [[Value.str "2020-01-01 00:00:00", Value.str "unknown drink",
        Value.float 1, Value.str "london"]])
    (DataFrame.mk cleanOrdersCols [])
    (DataFrame.mk cleanOrdersCols [])
    (DataFrame.mk drinksCols
      [[Value.int 1, Value.str "11007", Value.str "mojito", Value.str "cocktail glass"]])
    rfl rfl rfl
    (by intro r hr; rw [List.mem_singleton.mp hr]; rfl)
    (by intro r hr; simp at hr)
    (by intro r hr; simp at hr)
    rfl
    [Value.str "2020-01-01 00:00:00", Value.str "unknown drink",
     Value.float 1, Value.str "london"]
    (by decide) (by decide)

/-!
## C5: row count across the orders join

The claim as stated fails: a left join multiplies a row when the right
table holds several rows with the same key, and nothing in the pipeline
deduplicates `drink_name` in the drinks table.  With at-most-one match
per key (in particular when `drink_name` is unique in drinks; the
static bars table's locations are already distinct) the count is
preserved. -/

theorem filter_keyMatch_length_le_one (cols : List String) (c : String) (v : Value)
    (rows : List (List Value))
    (hnd : List.Pairwise (fun r1 r2 => getCell cols r1 c ≠ getCell cols r2 c) rows) :
    (rows.filter (fun rr => keyMatch v (getCell cols rr c))).length ≤ 1 := by
  induction rows with
  | nil => simp
  | cons rr rest ih =>
    rcases List.pairwise_cons.mp hnd with ⟨hhead, htail⟩
    rw [List.filter_cons]
    by_cases hm : keyMatch v (getCell cols rr c) = true
    · rw [if_pos hm]
      have hrest : rest.filter (fun r2 => keyMatch v (getCell cols r2 c)) = [] := by
        rw [List.filter_eq_nil_iff]
        intro r2 hr2 hm2
        exact hhead r2 hr2
          (((keyMatch_eq _ _ hm).symm.trans (keyMatch_eq _ _ (by simpa using hm2))))
      rw [hrest]
      simp
    · rw [if_neg hm]
      exact ih htail

theorem leftMergeBlock_length_one (lcols : List String) (rt : DataFrame)
    (lk rk : String) (lr : List Value)
    (h : (rt.rows.filter (fun rr =>
      keyMatch (getCell lcols lr lk) (getCell rt.cols rr rk))).length ≤ 1) :
    (leftMergeBlock lcols rt lk rk lr).length = 1 := by
  unfold leftMergeBlock
  cases hfil : rt.rows.filter (fun rr =>
      keyMatch (getCell lcols lr lk) (getCell rt.cols rr rk)) with
  | nil => rfl
  | cons rr ms =>
    rw [hfil] at h
    simp only [List.length_cons] at h
    have hms : ms = [] := List.length_eq_zero.mp (by omega)
    subst hms
    rfl

theorem leftMerge_length (l rt : DataFrame) (lk rk : String)
    (h : ∀ lr ∈ l.rows, (rt.rows.filter (fun rr =>
      keyMatch (getCell l.cols lr lk) (getCell rt.cols rr rk))).length ≤ 1) :
    (leftMerge l rt lk rk).rows.length = l.rows.length := by
  rw [leftMerge_rows]
  suffices hgen : ∀ rows : List (List Value),
      (∀ lr ∈ rows, (rt.rows.filter (fun rr =>
        keyMatch (getCell l.cols lr lk) (getCell rt.cols rr rk))).length ≤ 1) →
      (rows.flatMap (leftMergeBlock l.cols rt lk rk)).length = rows.length by
    exact hgen l.rows h
  intro rows
  induction rows with
  | nil => intro _; rfl
  | cons lr rest ih =>
    intro hrows
    rw [List.flatMap_cons, List.length_append]
    rw [leftMergeBlock_length_one l.cols rt lk rk lr (hrows lr (List.mem_cons_self lr rest))]
    rw [ih (fun x hx => hrows x (List.mem_cons_of_mem _ hx)), List.length_cons]
    omega

/-- C5 counterexample: with two drinks rows sharing the name
`"mojito"`, one single order row joins to two result rows, so the
orders table does not have as many rows as the three cleaned sets
combined (1 + 0 + 0). -/
theorem orders_rowcount_counterexample :
    (build_orders_dataframe
        (DataFrame.mk cleanOrdersCols
          [[Value.str "2020-01-01 00:00:00", Value.str "mojito",
            Value.float 1, Value.str "london"]])
        (DataFrame.mk cleanOrdersCols [])
        (DataFrame.mk cleanOrdersCols [])
        (DataFrame.mk drinksCols
          [[Value.int 1, Value.str "1", Value.str "mojito", Value.str "glass a"],
           [Value.int 2, Value.str "2", Value.str "mojito", Value.str "glass b"]])
        build_bars_dataframe).map (fun df => df.rows.length) = Except.ok 2 ∧
    (2 : Nat) ≠
      (DataFrame.mk cleanOrdersCols
        [[Value.str "2020-01-01 00:00:00", Value.str "mojito",
          Value.float 1, Value.str "london"]]).rows.length +
      (DataFrame.mk cleanOrdersCols []).rows.length +
      (DataFrame.mk cleanOrdersCols []).rows.length :=
  ⟨rfl, by decide⟩

/-- C5 amended: concatenating the three cleaned order frames and
left-joining drinks and bars preserves the total row count, provided
the drinks table's `drink_name` values are pairwise distinct (the
static bars table's locations already are); without that proviso a
duplicated drink name multiplies its order rows. -/
theorem orders_rowcount_preserved (b l n drinks : DataFrame)
    (hb : b.cols = cleanOrdersCols) (hl : l.cols = cleanOrdersCols)
    (hn : n.cols = cleanOrdersCols)
    (hwb : DataFrame.WF b) (hwl : DataFrame.WF l) (hwn : DataFrame.WF n)
    (hd : drinks.cols = drinksCols)
    (hnd : List.Pairwise (fun r1 r2 =>
      getCell drinksCols r1 "drink_name" ≠ getCell drinksCols r2 "drink_name")
      drinks.rows) :
    ∃ out : DataFrame,
      build_orders_dataframe b l n drinks build_bars_dataframe = Except.ok out ∧
      out.rows.length = b.rows.length + l.rows.length + n.rows.length := by
  have hcolsall : ∀ x ∈ [b, l, n], x.cols = cleanOrdersCols := by
    intro x hx
    rcases List.mem_cons.mp hx with h | hx
    · exact h ▸ hb
    rcases List.mem_cons.mp hx with h | hx
    · exact h ▸ hl
    rcases List.mem_cons.mp hx with h | hx
    · exact h ▸ hn
    · simp at hx
  have hwfall : ∀ x ∈ [b, l, n], DataFrame.WF x := by
    intro x hx
    rcases List.mem_cons.mp hx with h | hx
    · exact h ▸ hwb
    rcases List.mem_cons.mp hx with h | hx
    · exact h ▸ hwl
    rcases List.mem_cons.mp hx with h | hx
    · exact h ▸ hwn
    · simp at hx
  have hcc : concatDFs [b, l, n] =
      Except.ok ⟨cleanOrdersCols, [b, l, n].flatMap (fun x => x.rows)⟩ :=
    concatDFs_same cleanOrdersCols b [l, n] hcolsall (by decide) hwfall
  refine ⟨_, by unfold build_orders_dataframe; rw [hcc], ?_⟩
  rw [create_index_rows_length]
  have hnd' : List.Pairwise (fun r1 r2 =>
      getCell drinks.cols r1 "drink_name" ≠ getCell drinks.cols r2 "drink_name")
      drinks.rows := by
    rw [hd]
    exact hnd
  have hM1 : (leftMerge ⟨cleanOrdersCols, [b, l, n].flatMap (fun x => x.rows)⟩ drinks
      "drink_name" "drink_name").rows.length =
      ([b, l, n].flatMap (fun x => x.rows)).length :=
    leftMerge_length _ drinks "drink_name" "drink_name"
      (fun lr _ => filter_keyMatch_length_le_one drinks.cols "drink_name" _ drinks.rows hnd')
  have hbarsnd : List.Pairwise (fun r1 r2 =>
      getCell build_bars_dataframe.cols r1 "location" ≠
        getCell build_bars_dataframe.cols r2 "location")
      build_bars_dataframe.rows := by
    decide
  have hM2 : (leftMerge
      (leftMerge ⟨cleanOrdersCols, [b, l, n].flatMap (fun x => x.rows)⟩ drinks
        "drink_name" "drink_name")
      build_bars_dataframe "location" "location").rows.length =
      (leftMerge ⟨cleanOrdersCols, [b, l, n].flatMap (fun x => x.rows)⟩ drinks
        "drink_name" "drink_name").rows.length :=
    leftMerge_length _ build_bars_dataframe "location" "location"
      (fun lr _ => filter_keyMatch_length_le_one build_bars_dataframe.cols "location" _
        build_bars_dataframe.rows hbarsnd)
  rw [hM2, hM1]
  simp [List.length_append]
  omega

/-- C5 witness: one order row, drinks with two distinct names. -/
theorem orders_rowcount_preserved_witness :
    ∃ out : DataFrame,
      build_orders_dataframe
          (DataFrame.mk cleanOrdersCols
            [[Value.str "2020-01-01 00:00:00", Value.str "mojito",
              Value.float 1, Value.str "london"]])
          (DataFrame.mk cleanOrdersCols [])
          (DataFrame.mk cleanOrdersCols [])
          (DataFrame.mk drinksCols
            [[Value.int 1, Value.str "1", Value.str "mojito", Value.str "glass a"],
             [Value.int 2, Value.str "2", Value.str "margarita", Value.str "glass b"]])
          build_bars_dataframe = Except.ok out ∧
      out.rows.length =
        (DataFrame.mk cleanOrdersCols
          [[Value.str "2020-01-01 00:00:00", Value.str "mojito",
            Value.float 1, Value.str "london"]]).rows.length +
        (DataFrame.mk cleanOrdersCols []).rows.length +
        (DataFrame.mk cleanOrdersCols []).rows.length :=
  orders_rowcount_preserved
    (DataFrame.mk cleanOrdersCols
      [[Value.str "2020-01-01 00:00:00", Value.str "mojito",
        Value.float 1, Value.str "london"]])
    (DataFrame.mk cleanOrdersCols [])
    (DataFrame.mk cleanOrdersCols [])
    (DataFrame.mk drinksCols
      [[Value.int 1, Value.str "1", Value.str "mojito", Value.str "glass a"],
       [Value.int 2, Value.str "2", Value.str "margarita", Value.str "glass b"]])
    rfl rfl rfl
    (by intro r hr; rw [List.mem_singleton.mp hr]; rfl)
    (by intro r hr; simp at hr)
    (by intro r hr; simp at hr)
    rfl
    (by decide)

/-!
## C2: the Schema Enforcer projects, casts, and fails on bad values -/

theorem getD_set_ne {α : Type} (d v : α) :
    ∀ (r : List α) (j m : Nat), j ≠ m → (r.set j v).getD m d = r.getD m d := by
  intro r
  induction r with
  | nil => intro j m _; simp
  | cons a t ih =>
    intro j m hjm
    match j, m with
    | 0, 0 => exact absurd rfl hjm
    | 0, m + 1 => simp
    | j + 1, 0 => simp
    | j + 1, m + 1 =>
      simp only [List.set_cons_succ, List.getD_cons_succ]
      exact ih j m (fun h => hjm (by rw [h]))

theorem getD_append_len {α : Type} (d : α) :
    ∀ (pre l : List α), (pre ++ l).getD pre.length d = l.getD 0 d := by
  intro pre l
  induction pre with
  | nil => rfl
  | cons a t ih => simpa using ih

theorem set_append_len {α : Type} (w : α) :
    ∀ (pre : List α) (v : α) (suf : List α),
      (pre ++ v :: suf).set pre.length w = pre ++ w :: suf := by
  intro pre v suf
  induction pre with
  | nil => rfl
  | cons a t ih => simpa using ih

theorem mapM_some_mem {α β : Type} (f : α → Option β) :
    ∀ (l : List α) (l' : List β), l.mapM f = some l' →
      ∀ a ∈ l, ∃ b ∈ l', f a = some b := by
  intro l
  induction l with
  | nil => intro l' _ a ha; simp at ha
  | cons x t ih =>
    intro l' hml a ha
    rw [List.mapM_cons] at hml
    cases hfx : f x with
    | none => rw [hfx] at hml; simp at hml
    | some b =>
      rw [hfx] at hml
      cases hmt : t.mapM f with
      | none =>
        rw [hmt] at hml
        simp at hml
      | some bs =>
        rw [hmt] at hml
        simp only [Option.bind_some, Option.bind_eq_bind] at hml
        have hml' : some (b :: bs) = some l' := by simpa using hml
        cases Option.some.inj hml'
        rcases List.mem_cons.mp ha with h | h
        · exact ⟨b, List.mem_cons_self b bs, h ▸ hfx⟩
        · obtain ⟨b', hb', hfb'⟩ := ih bs hmt a h
          exact ⟨b', List.mem_cons_of_mem _ hb', hfb'⟩

theorem castRowFrom_append (dts : List DType) :
    ∀ (pre suf : List Value), dts.length = suf.length →
      castRowFrom dts pre.length (pre ++ suf) =
        pre ++ (dts.zip suf).map (fun p => (castValue p.1 p.2).getD Value.null) := by
  induction dts with
  | nil =>
    intro pre suf hlen
    have hsuf : suf = [] := List.length_eq_zero.mp hlen.symm
    subst hsuf
    simp [castRowFrom]
  | cons dt rest ih =>
    intro pre suf hlen
    match suf with
    | [] => simp at hlen
    | v :: suf' =>
      unfold castRowFrom
      rw [getD_append_len, set_append_len]
      simp only [List.getD_cons_zero]
      have hstep := ih (pre ++ [(castValue dt v).getD Value.null]) suf'
        (by simpa using hlen)
      have hlen1 : pre.length + 1 = (pre ++ [(castValue dt v).getD Value.null]).length := by
        simp
      rw [show pre ++ (castValue dt v).getD Value.null :: suf' =
        (pre ++ [(castValue dt v).getD Value.null]) ++ suf' by simp, hlen1, hstep]
      simp

theorem castColsFrom_ok (dts : List DType) :
    ∀ (j : Nat) (rows : List (List Value)),
      (∀ i (hi : i < dts.length), ∀ r ∈ rows,
        (castValue (dts.get ⟨i, hi⟩) (r.getD (j + i) Value.null)).isSome = true) →
      castColsFrom dts j rows = some (rows.map (castRowFrom dts j)) := by
  induction dts with
  | nil =>
    intro j rows _
    unfold castColsFrom
    rw [show rows.map (castRowFrom [] j) = rows.map id from rfl, List.map_id]
  | cons dt rest ih =>
    intro j rows h
    unfold castColsFrom castColAt
    rw [mapM_eq_map_of_total _
      (fun r => r.set j ((castValue dt (r.getD j Value.null)).getD Value.null)) rows ?_]
    · show castColsFrom rest (j + 1)
        (rows.map (fun r => r.set j ((castValue dt (r.getD j Value.null)).getD Value.null))) =
        some (rows.map (castRowFrom (dt :: rest) j))
      rw [ih (j + 1) _ ?_]
      · rw [List.map_map]
        rfl
      · intro i hi r1 hr1
        obtain ⟨r, hr, hr1eq⟩ := List.mem_map.mp hr1
        have := h (i + 1) (by simpa using Nat.succ_lt_succ hi) r hr
        rw [← hr1eq, getD_set_ne _ _ _ _ _ (by omega)]
        have hj : j + (i + 1) = j + 1 + i := by omega
        rw [← hj]
        exact this
    · intro r hr
      have h0 := h 0 (by simp) r hr
      simp only [List.get, Nat.add_zero] at h0
      cases hc : castValue dt (r.getD j Value.null) with
      | none => rw [hc] at h0; simp at h0
      | some v =>
        show some (r.set j v) =
          some (r.set j ((castValue dt (r.getD j Value.null)).getD Value.null))
        rw [hc]
        rfl

theorem castColsFrom_fails (dts : List DType) :
    ∀ (j : Nat) (rows : List (List Value)),
      (∃ i, ∃ hi : i < dts.length, ∃ r ∈ rows,
        castValue (dts.get ⟨i, hi⟩) (r.getD (j + i) Value.null) = none) →
      castColsFrom dts j rows = none := by
  induction dts with
  | nil =>
    rintro j rows ⟨i, hi, _⟩
    simp at hi
  | cons dt rest ih =>
    rintro j rows ⟨i, hi, r, hr, hfail⟩
    unfold castColsFrom castColAt
    match i with
    | 0 =>
      rw [mapM_eq_none_of_mem _ rows ⟨r, hr, ?_⟩]
      simp only [List.get, Nat.add_zero] at hfail
      rw [hfail]
      rfl
    | i' + 1 =>
      cases hcast : rows.mapM (fun r =>
          (castValue dt (r.getD j Value.null)).map (fun v => r.set j v)) with
      | none => rfl
      | some rows1 =>
        obtain ⟨r1, hr1, hfr1⟩ := mapM_some_mem _ rows rows1 hcast r hr
        obtain ⟨v, _, hr1eq⟩ := Option.map_eq_some'.mp hfr1
        apply ih (j + 1) rows1
        refine ⟨i', by simpa using hi, r1, hr1, ?_⟩
        rw [← hr1eq, getD_set_ne _ _ _ _ _ (by omega)]
        have hj : j + 1 + i' = j + (i' + 1) := by omega
        rw [hj]
        exact hfail

theorem proj_getD (df : DataFrame) (dm : List (String × DType)) (r0 : List Value)
    (i : Nat) (hi : i < dm.length) :
    ((dm.map Prod.fst).map (fun c => getCell df.cols r0 c)).getD i Value.null =
      getCell df.cols r0 ((dm.get ⟨i, hi⟩).1) := by
  rw [List.getD_eq_getElem _ _ (by simpa using hi)]
  simp [List.getElem_map]

theorem castRowFrom_proj (df : DataFrame) (dm : List (String × DType)) (r0 : List Value) :
    castRowFrom (dm.map Prod.snd) 0 ((dm.map Prod.fst).map (fun c => getCell df.cols r0 c)) =
      dm.map (fun cd => (castValue cd.2 (getCell df.cols r0 cd.1)).getD Value.null) := by
  have h := castRowFrom_append (dm.map Prod.snd) []
    ((dm.map Prod.fst).map (fun c => getCell df.cols r0 c)) (by simp)
  simp only [List.nil_append, List.length_nil] at h
  rw [h, List.map_map, List.zip_map', List.map_map]
  rfl

/-- C2: `clean_dataframe` applied to a frame containing all declared
columns returns a frame whose columns are exactly the declared list in
declared order, with every cell cast to the column's declared type,
whenever every value converts; and it fails with a type-coercion error
whenever some value in a declared column cannot be converted. -/
theorem clean_dataframe_spec (df : DataFrame) (dm : List (String × DType))
    (hcols : ∀ c ∈ dm.map Prod.fst, c ∈ df.cols) :
    ((∀ cd ∈ dm, ∀ r ∈ df.rows, (castValue cd.2 (getCell df.cols r cd.1)).isSome = true) →
      clean_dataframe df dm = Except.ok
        ⟨dm.map Prod.fst,
         df.rows.map (fun r => dm.map (fun cd =>
           (castValue cd.2 (getCell df.cols r cd.1)).getD Value.null))⟩) ∧
    ((∃ cd ∈ dm, ∃ r ∈ df.rows, castValue cd.2 (getCell df.cols r cd.1) = none) →
      clean_dataframe df dm = Except.error "could not convert value to declared type") := by
  have hcontains : (dm.map Prod.fst).all (fun c => df.cols.contains c) = true := by
    rw [List.all_eq_true]
    intro c hc
    simpa using hcols c hc
  constructor
  · intro htotal
    unfold clean_dataframe
    rw [if_pos hcontains]
    rw [castColsFrom_ok (dm.map Prod.snd) 0
      (df.rows.map (fun r => (dm.map Prod.fst).map (fun c => getCell df.cols r c))) ?_]
    · show Except.ok (DataFrame.mk (dm.map Prod.fst)
        ((df.rows.map (fun r => (dm.map Prod.fst).map (fun c => getCell df.cols r c))).map
          (castRowFrom (dm.map Prod.snd) 0))) = _
      congr 2
      rw [List.map_map]
      apply List.map_congr_left
      intro r0 _
      exact castRowFrom_proj df dm r0
    · intro i hi r hpr
      obtain ⟨r0, hr0, hreq⟩ := List.mem_map.mp hpr
      rw [← hreq, Nat.zero_add, proj_getD df dm r0 i (by simpa using hi)]
      have hget : (dm.map Prod.snd).get ⟨i, hi⟩ = (dm.get ⟨i, by simpa using hi⟩).2 := by
        simp
      rw [hget]
      exact htotal (dm.get ⟨i, by simpa using hi⟩) (dm.get_mem _ _) r0 hr0
  · rintro ⟨cd, hcd, r0, hr0, hfail⟩
    unfold clean_dataframe
    rw [if_pos hcontains]
    obtain ⟨⟨i, hi⟩, hget⟩ := List.mem_iff_get.mp hcd
    rw [castColsFrom_fails (dm.map Prod.snd) 0
      (df.rows.map (fun r => (dm.map Prod.fst).map (fun c => getCell df.cols r c)))
      ⟨i, by simpa using hi,
       (dm.map Prod.fst).map (fun c => getCell df.cols r0 c),
       List.mem_map.mpr ⟨r0, hr0, rfl⟩, ?_⟩]
    rw [Nat.zero_add, proj_getD df dm r0 i hi]
    have hsnd : (dm.map Prod.snd).get ⟨i, by simpa using hi⟩ = (dm.get ⟨i, hi⟩).2 := by
      simp
    rw [hsnd, hget]
    exact hfail

/-- C2 witness: the Schema Enforcer applied with `ORDERS_MAP` to a
one-row joined orders frame whose values all convert. -/
theorem clean_dataframe_spec_witness :
    clean_dataframe
        (DataFrame.mk
          ["order_id", "order_datetime", "drink_name", "order_amount", "location",
           "drink_id", "cocktail_db_id", "glass_name", "bar_id"]
          [[Value.int 1, Value.str "2020-01-01 00:00:00", Value.str "mojito",
            Value.float 5, Value.str "london", Value.int 3, Value.str "11007",
            Value.str "cocktail glass", Value.int 3]])
        ORDERS_MAP =
      Except.ok
        ⟨ORDERS_MAP.map Prod.fst,
         (DataFrame.mk
           ["order_id", "order_datetime", "drink_name", "order_amount", "location",
            "drink_id", "cocktail_db_id", "glass_name", "bar_id"]
           [[Value.int 1, Value.str "2020-01-01 00:00:00", Value.str "mojito",
             Value.float 5, Value.str "london", Value.int 3, Value.str "11007",
             Value.str "cocktail glass", Value.int 3]]).rows.map
           (fun r => ORDERS_MAP.map (fun cd =>
             (castValue cd.2 (getCell
               (DataFrame.mk
                 ["order_id", "order_datetime", "drink_name", "order_amount", "location",
                  "drink_id", "cocktail_db_id", "glass_name", "bar_id"]
                 [[Value.int 1, Value.str "2020-01-01 00:00:00", Value.str "mojito",
                   Value.float 5, Value.str "london", Value.int 3, Value.str "11007",
                   Value.str "cocktail glass", Value.int 3]]).cols r cd.1)).getD
               Value.null))⟩ :=
  (clean_dataframe_spec
    (DataFrame.mk
      ["order_id", "order_datetime", "drink_name", "order_amount", "location",
       "drink_id", "cocktail_db_id", "glass_name", "bar_id"]
      [[Value.int 1, Value.str "2020-01-01 00:00:00", Value.str "mojito",
        Value.float 5, Value.str "london", Value.int 3, Value.str "11007",
        Value.str "cocktail glass", Value.int 3]])
    ORDERS_MAP (by decide)).1 (by decide)
